import Mathlib

/-!
Verification of `biothings_explorer/networkx_helper.py`.

This file gives a shallow embedding of the module in Lean 4 and proves
properties of it.  Python values are modelled by the inductive type `PyVal`
(dictionaries are insertion-ordered association lists with unique keys in any
dict that Python can actually build); a networkx `MultiDiGraph` is modelled by
`MultiDiGraph`, an insertion-ordered node list together with an insertion-
ordered edge list (the edge keys of a multigraph are exactly the insertion
positions, so `dict(G[u][v]).values()` is the sublist of edges from `u` to `v`
in insertion order).  Python statements that can raise are modelled either
with `Except PyErr` (for read-only pipelines) or with a result state paired
with `Option PyErr` (for pipelines that mutate the graph in place before the
exception escapes).
-/

/-- A Python value as used by the module: `None`, strings, integers, lists
and string-keyed dictionaries. -/
inductive PyVal where
  | none
  | str (s : String)
  | int (n : Int)
  | list (xs : List PyVal)
  | dict (kvs : List (String × PyVal))

/-- Attribute dictionaries (node data, edge data, row records):
string-keyed, insertion ordered. -/
abbrev Attrs := List (String × PyVal)

/-- Python truthiness: `bool(v)`. -/
def PyVal.truthy : PyVal → Bool
  | .none => false
  | .str s => !s.isEmpty
  | .int n => n != 0
  | .list xs => !xs.isEmpty
  | .dict kvs => !kvs.isEmpty

/-- Discriminates `isinstance(v, dict)`. -/
def PyVal.isDict : PyVal → Bool
  | .dict _ => true
  | _ => false

mutual

/-- Python `repr(v)`. -/
def PyVal.pyRepr : PyVal → String
  | .none => "None"
  | .str s => "\x27" ++ s ++ "\x27"
  | .int n => toString n
  | .list xs => "[" ++ String.intercalate ", " (pyReprList xs) ++ "]"
  | .dict kvs => "\x7b" ++ String.intercalate ", " (pyReprDict kvs) ++ "\x7d"

/-- Applies `repr` to each element of a list. -/
def pyReprList : List PyVal → List String
  | [] => []
  | x :: xs => PyVal.pyRepr x :: pyReprList xs

/-- Applies `repr` to each key-value pair of a dict. -/
def pyReprDict : List (String × PyVal) → List String
  | [] => []
  | kv :: kvs => ("\x27" ++ kv.1 ++ "\x27" ++ ": " ++ PyVal.pyRepr kv.2) :: pyReprDict kvs

end

/-- Python `str(v)`: identity on strings, `repr`-like elsewhere. -/
def PyVal.pyStr : PyVal → String
  | .str s => s
  | v => v.pyRepr

mutual

/-- Boolean equality of Python values (used by `drop_duplicates`). -/
def PyVal.pyBeq : PyVal → PyVal → Bool
  | .none, .none => true
  | .str a, .str b => a == b
  | .int a, .int b => a == b
  | .list a, .list b => pyBeqList a b
  | .dict a, .dict b => pyBeqDict a b
  | _, _ => false

/-- Elementwise equality of lists of Python values. -/
def pyBeqList : List PyVal → List PyVal → Bool
  | [], [] => true
  | a :: as2, b :: bs => PyVal.pyBeq a b && pyBeqList as2 bs
  | _, _ => false

/-- Pairwise equality of dicts (insertion order included, which is how all
rows built by the module compare). -/
def pyBeqDict : List (String × PyVal) → List (String × PyVal) → Bool
  | [], [] => true
  | a :: as2, b :: bs => (a.1 == b.1) && PyVal.pyBeq a.2 b.2 && pyBeqDict as2 bs
  | _, _ => false

end

/-- The Python exceptions the module can raise. -/
inductive PyErr where
  | keyError (msg : String)
  | typeError (msg : String)
  | valueError (msg : String)
  | attributeError (msg : String)
  | indexError (msg : String)
deriving DecidableEq

/-- First-match lookup in an insertion-ordered dictionary: `d[k]` when the
key is present. -/
def alookup {α : Type} : List (String × α) → String → Option α
  | [], _ => Option.none
  | (k, v) :: rest, key => if k = key then some v else alookup rest key

/-- Dictionary store `d[k] = v`: overwrite the first binding of `k` in place,
or append a fresh binding. -/
def aset {α : Type} : List (String × α) → String → α → List (String × α)
  | [], key, val => [(key, val)]
  | (k, v) :: rest, key, val =>
    if k = key then (k, val) :: rest else (k, v) :: aset rest key val

/-- Python `d.update(upd)`: store every binding of `upd` into `d` in order. -/
def dictUpdate {α : Type} (d upd : List (String × α)) : List (String × α) :=
  upd.foldl (fun acc kv => aset acc kv.1 kv.2) d

/-- Python `for x in v`: lists yield their elements, strings their
characters, dicts their keys; other values raise `TypeError`. -/
def pyIter : PyVal → Except PyErr (List PyVal)
  | .list xs => .ok xs
  | .str s => .ok (s.data.map (fun c => .str (String.mk [c])))
  | .dict kvs => .ok (kvs.map (fun kv => .str kv.1))
  | _ => .error (.typeError "object is not iterable")

/-- Python `v.items()`: only dicts have it. -/
def pyItems : PyVal → Except PyErr (List (String × PyVal))
  | .dict kvs => .ok kvs
  | _ => .error (.attributeError "items")

/-- Python `v[k]` for a string key: `KeyError` on a dict without the key,
`TypeError` on non-dicts. -/
def pySub (v : PyVal) (k : String) : Except PyErr PyVal :=
  match v with
  | .dict kvs =>
    match alookup kvs k with
    | some x => .ok x
    | Option.none => .error (.keyError k)
  | _ => .error (.typeError "object is not subscriptable")

/-- Python `v.get(k)`: `None` default on dicts, `AttributeError` on
non-dicts (in particular on `None`). -/
def pyGet (v : PyVal) (k : String) : Except PyErr PyVal :=
  match v with
  | .dict kvs => .ok ((alookup kvs k).getD .none)
  | _ => .error (.attributeError "get")

/-- Python slicing `v[4:]`: strings and lists drop their first four
items, everything else raises `TypeError`. -/
def slice4 (v : PyVal) : Except PyErr PyVal :=
  match v with
  | .str s => .ok (.str (s.drop 4))
  | .list xs => .ok (.list (xs.drop 4))
  | _ => .error (.typeError "unsliceable")

/-- Splits a character list at every occurrence of `sep`
(Python `s.split(sep)` on the character level). -/
def splitCharAux (sep : Char) (cur : List Char) : List Char → List (List Char)
  | [] => [cur.reverse]
  | c :: cs => if c = sep then cur.reverse :: splitCharAux sep [] cs
               else splitCharAux sep (c :: cur) cs

/-- Python `s.split(sep)` for a one-character separator. -/
def pySplitChar (sep : Char) (s : String) : List String :=
  (splitCharAux sep [] s.data).map String.mk

/-- The character list after the first `':'`, if any. -/
def afterFirstColon : List Char → Option (List Char)
  | [] => Option.none
  | c :: cs => if c = ':' then some cs else afterFirstColon cs

/-- Python `s.split(':', 1)[-1]`: everything after the first colon, or the
whole string when there is none. -/
def splitColonTail (s : String) : String :=
  match afterFirstColon s.data with
  | some rest => String.mk rest
  | Option.none => s

/-- Python `s.split('-')[-1]`: everything after the last dash, or the whole
string when there is none. -/
def lastSplit (sep : Char) (s : String) : String :=
  match (pySplitChar sep s).getLast? with
  | some t => t
  | Option.none => s

/-- Python `s.startswith(p)`. -/
def isPrefixCharList : List Char → List Char → Bool
  | [], _ => true
  | _ :: _, [] => false
  | p :: ps, c :: cs => p == c && isPrefixCharList ps cs

/-- Python `s.startswith(p)` on strings. -/
def pyStartsWith (s p : String) : Bool := isPrefixCharList p.data s.data

/-- A networkx `MultiDiGraph`: insertion-ordered nodes with attribute dicts,
and insertion-ordered parallel edges with attribute dicts (the multigraph
edge key of an edge is its insertion position, so iterating
`dict(G[u][v]).values()` visits the `u -> v` edges in insertion order). -/
structure MultiDiGraph where
  nodes : List (String × Attrs)
  edges : List (String × String × Attrs)

/-- First-match node lookup in a node list. -/
def findNodeL : List (String × Attrs) → String → Option Attrs
  | [], _ => Option.none
  | (k, a) :: rest, key => if k = key then some a else findNodeL rest key

/-- Python `G.nodes[k]` as an option (first binding of the key). -/
def MultiDiGraph.findNode (G : MultiDiGraph) (k : String) : Option Attrs :=
  findNodeL G.nodes k

/-- Python `k in G`. -/
def MultiDiGraph.hasNode (G : MultiDiGraph) (k : String) : Bool :=
  (G.findNode k).isSome

/-- Replaces the attribute dict of the first binding of `k`. -/
def setNodeAttrsList (k : String) (f : Attrs → Attrs) :
    List (String × Attrs) → List (String × Attrs)
  | [] => []
  | (k2, a) :: rest =>
    if k2 = k then (k2, f a) :: rest else (k2, a) :: setNodeAttrsList k f rest

/-- networkx `G.add_node(k, **attrs)`: merge the attributes into an existing
node, or append a fresh node whose dict is a copy of the keyword dict. -/
def MultiDiGraph.add_node (G : MultiDiGraph) (k : String) (attrs : Attrs) : MultiDiGraph :=
  if G.hasNode k then
    ⟨setNodeAttrsList k (fun a => dictUpdate a attrs) G.nodes, G.edges⟩
  else
    ⟨G.nodes ++ [(k, dictUpdate [] attrs)], G.edges⟩

/-- networkx `G.add_nodes_from(keys, **attrs)`. -/
def MultiDiGraph.add_nodes_from (G : MultiDiGraph) (ks : List String) (attrs : Attrs) :
    MultiDiGraph :=
  ks.foldl (fun g k => g.add_node k attrs) G

/-- networkx `G.add_nodes_from(pairs)` for `(key, attr-dict)` pairs. -/
def MultiDiGraph.add_nodes_from_data (G : MultiDiGraph) (xs : List (String × Attrs)) :
    MultiDiGraph :=
  xs.foldl (fun g kv => g.add_node kv.1 kv.2) G

/-- Adds a node with an empty attribute dict when absent; an existing node is
left untouched (what `add_edge` does to its endpoints). -/
def MultiDiGraph.ensureNode (G : MultiDiGraph) (k : String) : MultiDiGraph :=
  if G.hasNode k then G else ⟨G.nodes ++ [(k, [])], G.edges⟩

/-- networkx `G.add_edge(u, v, **attrs)`: creates missing endpoints, then
appends one more parallel edge whose dict is a copy of the keyword dict. -/
def MultiDiGraph.add_edge (G : MultiDiGraph) (u v : String) (attrs : Attrs) : MultiDiGraph :=
  let G2 := (G.ensureNode u).ensureNode v
  ⟨G2.nodes, G2.edges ++ [(u, v, dictUpdate [] attrs)]⟩

/-- networkx `G.add_edges_from(triples)` for `(u, v, attr-dict)` triples. -/
def MultiDiGraph.add_edges_from (G : MultiDiGraph) (es : List (String × String × Attrs)) :
    MultiDiGraph :=
  es.foldl (fun g e => g.add_edge e.1 e.2.1 e.2.2) G

/-- The attribute dicts of the `u -> v` edges, in insertion order:
`dict(G[u][v]).values()`. -/
def MultiDiGraph.edgesBetween (G : MultiDiGraph) (u v : String) : List Attrs :=
  (G.edges.filter (fun e => e.1 == u && e.2.1 == v)).map (fun e => e.2.2)

/-- Python `G[u][v]`: `KeyError` when `u` is not a node or when `v` is not a
successor of `u`. -/
def MultiDiGraph.adjE (G : MultiDiGraph) (u v : String) : Except PyErr (List Attrs) :=
  if G.hasNode u then
    match G.edgesBetween u v with
    | [] => .error (.keyError v)
    | es => .ok es
  else .error (.keyError u)

/-- Python `G.nodes[k]`: `KeyError` when absent. -/
def nodeAttrsE (G : MultiDiGraph) (k : String) : Except PyErr Attrs :=
  match G.findNode k with
  | some a => .ok a
  | Option.none => .error (.keyError k)

/-- Python `attrs[k]` on an attribute dict: `KeyError` when absent. -/
def attrGetE (a : Attrs) (k : String) : Except PyErr PyVal :=
  match alookup a k with
  | some v => .ok v
  | Option.none => .error (.keyError k)

/-- Runs an in-place mutation step over a list, stopping at the first raised
exception (Python loop semantics). -/
def stFold {α : Type} (f : MultiDiGraph → α → MultiDiGraph × Option PyErr) :
    MultiDiGraph → List α → MultiDiGraph × Option PyErr
  | G, [] => (G, Option.none)
  | G, x :: xs =>
    match f G x with
    | (G2, Option.none) => stFold f G2 xs
    | (G2, some e) => (G2, some e)

/-- A `mapM` for `Except PyErr`, with plain structural recursion. -/
def mapME {α β : Type} (f : α → Except PyErr β) : List α → Except PyErr (List β)
  | [] => .ok []
  | x :: xs =>
    match f x with
    | .error e => .error e
    | .ok y =>
      match mapME f xs with
      | .error e => .error e
      | .ok ys => .ok (y :: ys)

/-- Error-propagating left fold. -/
def foldE {α β : Type} (f : β → α → Except PyErr β) : β → List α → Except PyErr β
  | b, [] => .ok b
  | b, x :: xs =>
    match f b x with
    | .ok b2 => foldE f b2 xs
    | .error e => .error e

/-- Concatenation of a list of lists. -/
def joinLists {α : Type} : List (List α) → List α
  | [] => []
  | x :: xs => x ++ joinLists xs

/-- Python `itertools.product(xs, ys)` as a list of pairs, last coordinate varying
fastest. -/
def listProd {α β : Type} (xs : List α) (ys : List β) : List (α × β) :=
  joinLists (xs.map (fun x => ys.map (fun y => (x, y))))

/-!
## `load_res_to_networkx` (source lines 16-60)

The response is a dict from input id to parsed output; the graph is mutated
in place, so each step returns the graph state reached when an exception
escapes.
-/

/-- One `_b` of the inner `for _b in b` loop of `load_res_to_networkx`:
the scalar branch adds one level-2 node (evaluating `n["@type"]` first, so a
missing `@type` raises before the node is created) and one bare edge; the
dict branch walks the nested identifier lists. -/
def load_value (id_mapping : List (String × String)) (output_id_types : List String)
    (m a : String) (n_items : List (String × PyVal)) (G : MultiDiGraph) (_b : PyVal) :
    MultiDiGraph × Option PyErr :=
  match _b with
  | .dict ds =>
    stFold (fun G ij =>
      if output_id_types.contains ij.1 && ij.2.truthy then
        let output_type := (alookup ds "@type").getD .none
        let source := (alookup ds "$source").getD .none
        match pyIter ij.2 with
        | .error e => (G, some e)
        | .ok js =>
          let jstrs := js.map PyVal.pyStr
          let G :=
            G.add_nodes_from jstrs
              [("identifier", .str ij.1), ("type", output_type), ("level", .int 2)]
          stFold (fun G _j =>
            match alookup id_mapping m with
            | Option.none => (G, some (.keyError m))
            | some src =>
              (G.add_edge src _j
                [("info", .dict ds), ("label", .str a), ("source", source)],
               Option.none)) G jstrs
      else (G, Option.none)) G ds
  | _ =>
    match alookup n_items "@type" with
    | Option.none => (G, some (.keyError "@type"))
    | some ty =>
      let G := G.add_node _b.pyStr [("identifier", .str a), ("type", ty), ("level", .int 2)]
      match alookup id_mapping m with
      | Option.none => (G, some (.keyError m))
      | some src =>
        (G.add_edge src _b.pyStr [("info", .none), ("label", .str a)], Option.none)

/-- One `(a, b)` of the `for a, b in n.items()` loop: properties outside
`labels` are skipped, accepted ones have their value iterated. -/
def load_prop (labels : List String) (id_mapping : List (String × String))
    (output_id_types : List String) (m : String) (n_items : List (String × PyVal))
    (G : MultiDiGraph) (ab : String × PyVal) : MultiDiGraph × Option PyErr :=
  if labels.contains ab.1 then
    match pyIter ab.2 with
    | .error e => (G, some e)
    | .ok bs => stFold (load_value id_mapping output_id_types m ab.1 n_items) G bs
  else (G, Option.none)

/-- One `(m, n)` of the `for m, n in _res.items()` loop: falsy outputs are
skipped, truthy ones must be dicts. -/
def load_entry (labels : List String) (id_mapping : List (String × String))
    (output_id_types : List String) (G : MultiDiGraph) (mn : String × PyVal) :
    MultiDiGraph × Option PyErr :=
  if mn.2.truthy then
    match pyItems mn.2 with
    | .error e => (G, some e)
    | .ok kvs => stFold (load_prop labels id_mapping output_id_types mn.1 kvs) G kvs
  else (G, Option.none)

/-- Source `load_res_to_networkx(_res, G, labels, id_mapping, output_id_types)`:
loads a restructured API response into the graph, returning the final graph
state together with the exception that escaped, if any. -/
def load_res_to_networkx (_res : List (String × PyVal)) (G : MultiDiGraph)
    (labels : List String) (id_mapping : List (String × String))
    (output_id_types : List String) : MultiDiGraph × Option PyErr :=
  if _res.isEmpty then (G, Option.none)
  else stFold (load_entry labels id_mapping output_id_types) G _res

/-!
## `add_equivalent_ids_to_nodes` (source lines 63-96)

The stages mirror the statement blocks of the source: the level-2
comprehension, the `defaultdict(list)` grouping keyed by
`type + ',' + identifier`, the `k.split(',')` unpacking that builds the
converter inputs, and the attachment loop that writes `equivalent_ids`.
-/

/-- Python `v == 2`. -/
def pyEqTwo : PyVal → Bool
  | .int n => n == 2
  | _ => false

/-- The comprehension `[x for x, y in G.nodes(data=True) if y and y['level'] == 2]`:
`y['level']` raises on a non-empty attribute dict without a level. -/
def level2_filter : List (String × Attrs) → Except PyErr (List String)
  | [] => .ok []
  | (x, y) :: rest =>
    if y.isEmpty then level2_filter rest
    else
      match alookup y "level" with
      | Option.none => .error (.keyError "level")
      | some lv =>
        if pyEqTwo lv then
          match level2_filter rest with
          | .error e => .error e
          | .ok t => .ok (x :: t)
        else level2_filter rest

/-- All level-2 (output) node keys of the graph. -/
def level2_output_ids (G : MultiDiGraph) : Except PyErr (List String) :=
  level2_filter G.nodes

/-- Source `G.node[x]['type'] + ',' + G.node[x]['identifier']`: string concatenation
raises `TypeError` unless both attributes are strings. -/
def type_identifier_of (G : MultiDiGraph) (x : String) : Except PyErr String :=
  match nodeAttrsE G x with
  | .error e => .error e
  | .ok attrs =>
    match attrGetE attrs "type" with
    | .error e => .error e
    | .ok t =>
      match attrGetE attrs "identifier" with
      | .error e => .error e
      | .ok i =>
        match t, i with
        | .str ts, .str is2 => .ok (ts ++ "," ++ is2)
        | _, _ => .error (.typeError "can only concatenate str")

/-- Source `output_ids_dict[k].append(x)` on a `defaultdict(list)`: append to the
group of key `k`, creating it at the end on first use. -/
def addToGroup (gs : List (String × List String)) (k x : String) :
    List (String × List String) :=
  match gs with
  | [] => [(k, [x])]
  | (k2, xs) :: rest =>
    if k2 = k then (k2, xs ++ [x]) :: rest else (k2, xs) :: addToGroup rest k x

/-- The grouping loop over the output ids. -/
def group_go (G : MultiDiGraph) (acc : List (String × List String)) :
    List String → Except PyErr (List (String × List String))
  | [] => .ok acc
  | x :: xs =>
    match type_identifier_of G x with
    | .error e => .error e
    | .ok k => group_go G (addToGroup acc k x) xs

/-- The `output_ids_dict` built from the output ids. -/
def group_output_ids (G : MultiDiGraph) (ids : List String) :
    Except PyErr (List (String × List String)) :=
  group_go G [] ids

/-- Source `input_cls, input_id = k.split(','); idc_inputs.append((v, input_id, input_cls))`:
the tuple unpacking raises `ValueError` unless the key splits in exactly two. -/
def build_idc_inputs : List (String × List String) →
    Except PyErr (List (List String × String × String))
  | [] => .ok []
  | (k, v) :: rest =>
    match pySplitChar ',' k with
    | [input_cls, input_id] =>
      match build_idc_inputs rest with
      | .error e => .error e
      | .ok t => .ok ((v, input_id, input_cls) :: t)
    | _ => .error (.valueError "unpack")

/-- The attachment loop
`for m, n in equivalent_ids.items(): G.node[m.split(':', 1)[-1]]['equivalent_ids'] = n`:
writes happen in order and a stripped key that is not a node raises `KeyError`
with the writes made so far kept. -/
def attach_equivalent_ids (G : MultiDiGraph) (eq_ids : List (String × PyVal)) :
    MultiDiGraph × Option PyErr :=
  stFold (fun G mn =>
    let key := splitColonTail mn.1
    if G.hasNode key then
      (⟨setNodeAttrsList key (fun a => aset a "equivalent_ids" mn.2) G.nodes, G.edges⟩,
       Option.none)
    else (G, some (.keyError key))) G eq_ids

/-- Source `add_equivalent_ids_to_nodes(G, IDConverter)`, with the external converter
passed as a function from the batched inputs to the resolved mapping.
Returns `((graph, equivalent_ids), escaped exception)`. -/
def add_equivalent_ids_to_nodes (G : MultiDiGraph)
    (convert_ids : List (List String × String × String) → List (String × PyVal)) :
    (MultiDiGraph × List (String × PyVal)) × Option PyErr :=
  if G.nodes.isEmpty then ((G, []), Option.none)
  else
    match level2_output_ids G with
    | .error e => ((G, []), some e)
    | .ok output_ids =>
      if output_ids.isEmpty then ((G, []), Option.none)
      else
        match group_output_ids G output_ids with
        | .error e => ((G, []), some e)
        | .ok groups =>
          match build_idc_inputs groups with
          | .error e => ((G, []), some e)
          | .ok idc_inputs =>
            let equivalent_ids := convert_ids idc_inputs
            match attach_equivalent_ids G equivalent_ids with
            | (G2, Option.none) => ((G2, equivalent_ids), Option.none)
            | (G2, some e) => ((G2, equivalent_ids), some e)

/-!
## `merge_two_networkx_graphs` (source lines 99-112)

The source reads `G2.nodes(data=True)` and `G2.edges(data=True)` and writes
only into `G1`; the state-passing translation returns the final states of
both graphs so frame effects are visible.
-/

/-- Source `merge_two_networkx_graphs(G1, G2)` with both final graph states. -/
def merge_two_networkx_graphs_state (G1 G2 : MultiDiGraph) : MultiDiGraph × MultiDiGraph :=
  let nodes_to_add := G2.nodes.filter (fun kv => !G1.hasNode kv.1)
  let G1b := G1.add_nodes_from_data nodes_to_add
  let G1c := G1b.add_edges_from G2.edges
  (G1c, G2)

/-- Source `merge_two_networkx_graphs(G1, G2)`: the returned (mutated) `G1`. -/
def merge_two_networkx_graphs (G1 G2 : MultiDiGraph) : MultiDiGraph :=
  (merge_two_networkx_graphs_state G1 G2).1

/-!
## `retrieve_prop_from_edge` (source lines 142-162)
-/

/-- Collects the underlying strings when every element is a string
(`','.join` raises `TypeError` otherwise). -/
def allStrs : List PyVal → Option (List String)
  | [] => some []
  | .str s :: rest => (allStrs rest).map (fun t => s :: t)
  | _ => Option.none

/-- Python `','.join(items)`. -/
def joinComma (items : List PyVal) : Except PyErr PyVal :=
  match allStrs items with
  | some ss => .ok (.str (String.intercalate "," ss))
  | Option.none => .error (.typeError "join expects strings")

/-- Python `str(item) if not isinstance(item, str) else item`. -/
def stringifyItem (it : PyVal) : PyVal :=
  match it with
  | .str _ => it
  | _ => .str it.pyStr

/-- Source `retrieve_prop_from_edge(edge_info, prop)`: reads
`edge_info['info'].get(...)` for the requested provenance field, coerces a
scalar to a one-element list (stringifying list items only for `pubmed`),
joins with commas, and falls through to `None` for falsy data or an unknown
`prop`. -/
def retrieve_prop_from_edge (edge_info : PyVal) (prop : String) : Except PyErr PyVal :=
  if prop = "api" then
    match pySub edge_info "info" with
    | .error e => .error e
    | .ok info =>
      match pyGet info "$api" with
      | .error e => .error e
      | .ok data =>
        if data.truthy then
          match data with
          | .list xs => joinComma xs
          | _ => joinComma [data]
        else .ok .none
  else if prop = "source" then
    match pySub edge_info "info" with
    | .error e => .error e
    | .ok info =>
      match pyGet info "$source" with
      | .error e => .error e
      | .ok data =>
        if data.truthy then
          match data with
          | .list xs => joinComma xs
          | _ => joinComma [data]
        else .ok .none
  else if prop = "pubmed" then
    match pySub edge_info "info" with
    | .error e => .error e
    | .ok info =>
      match pyGet info "bts:pubmed" with
      | .error e => .error e
      | .ok data =>
        if data.truthy then
          match data with
          | .list xs => joinComma (xs.map stringifyItem)
          | _ => joinComma [data]
        else .ok .none
  else .ok .none

/-!
## Path extraction (source lines 164-252)
-/

/-- Modelled from the spec: `get_primary_id_from_equivalent_ids` lives in
`biothings_explorer.utils`, which is not among the sources.  Per the spec it
picks a primary identifier from the equivalent-ID mapping, preferring the
canonical kind for the entity type, with a fallback when nothing can be
picked; it does not raise.  We model it as taking the first identifier kind
with a non-empty value list and rendering `kind:value`, with `None` as the
fallback. -/
def get_primary_id_from_equivalent_ids (equivalent_ids _ty : PyVal) : PyVal :=
  match equivalent_ids with
  | .dict ((k, .list (v :: _)) :: _) => .str (k ++ ":" ++ v.pyStr)
  | _ => .none

/-- Modelled from the spec: `get_name_from_equivalent_ids` also lives in
`biothings_explorer.utils`.  Per the spec it picks a display name from the
equivalent-ID mapping and otherwise returns the supplied default; it does not
raise.  We model it as the first entry of a `name` list, defaulting
otherwise. -/
def get_name_from_equivalent_ids (equivalent_ids default : PyVal) : PyVal :=
  match equivalent_ids with
  | .dict kvs =>
    match alookup kvs "name" with
    | some (.list (v :: _)) => v
    | _ => default
  | _ => default

/-- One row of the 3-node branch of `connect_networkx_to_pandas_df`
(source lines 213-229), for one `(k, v)` pair of hop-1 and hop-2 edges; the
dict values are evaluated in source order, so any raise escapes here. -/
def row3M (G : MultiDiGraph) (p0 _p1 p2 : String) (a1 : Attrs)
    (node1_id node1_name output_id output_name : PyVal) (kv : Attrs × Attrs) :
    Except PyErr Attrs := do
  let inA ← nodeAttrsE G p0
  let input_ty ← attrGetE inA "type"
  let lbl1 ← attrGetE kv.1 "label"
  let lbl1s ← slice4 lbl1
  let p1src ← retrieve_prop_from_edge (.dict kv.1) "source"
  let p1api ← retrieve_prop_from_edge (.dict kv.1) "api"
  let p1pm ← retrieve_prop_from_edge (.dict kv.1) "pubmed"
  let n1ty ← attrGetE a1 "type"
  let lbl2 ← attrGetE kv.2 "label"
  let lbl2s ← slice4 lbl2
  let p2src ← retrieve_prop_from_edge (.dict kv.2) "source"
  let p2api ← retrieve_prop_from_edge (.dict kv.2) "api"
  let p2pm ← retrieve_prop_from_edge (.dict kv.2) "pubmed"
  let outA ← nodeAttrsE G p2
  let outTy ← attrGetE outA "type"
  .ok [("input", .str p0), ("input_type", input_ty), ("pred1", lbl1s),
       ("pred1_source", p1src), ("pred1_api", p1api), ("pred1_pubmed", p1pm),
       ("node1_id", node1_id), ("node1_name", node1_name), ("node1_type", n1ty),
       ("pred2", lbl2s), ("pred2_source", p2src), ("pred2_api", p2api),
       ("pred2_pubmed", p2pm),
       ("output_id", output_id), ("output_name", output_name), ("output_type", outTy)]

/-- One row of the fallback branch of `connect_networkx_to_pandas_df`
(source lines 233-242): note `pred1` is the raw edge label. -/
def row2M (G : MultiDiGraph) (p0 p1 : String) (output_id output_name : PyVal)
    (_edge : Attrs) : Except PyErr Attrs := do
  let inA ← nodeAttrsE G p0
  let input_ty ← attrGetE inA "type"
  let lbl ← attrGetE _edge "label"
  let src ← retrieve_prop_from_edge (.dict _edge) "source"
  let api2 ← retrieve_prop_from_edge (.dict _edge) "api"
  let pm ← retrieve_prop_from_edge (.dict _edge) "pubmed"
  let outA ← nodeAttrsE G p1
  let outTy ← attrGetE outA "type"
  .ok [("input", .str p0), ("input_type", input_ty), ("pred1", lbl),
       ("pred1_source", src), ("pred1_api", api2), ("pred1_pubmed", pm),
       ("output_id", output_id), ("output_name", output_name), ("output_type", outTy)]

/-- Python `xs[i]`: `IndexError` out of range. -/
def listGetE (xs : List String) (i : Nat) : Except PyErr String :=
  match xs.get? i with
  | some v => .ok v
  | Option.none => .error (.indexError "list index out of range")

/-- The body of `for _path in paths` in `connect_networkx_to_pandas_df`
(source lines 205-242): resolve the output node, then either expand the
cartesian product of hop edges (`len(_path) == 3`) or walk the single hop
using `_path[0]`/`_path[1]` only. -/
def processPath (G : MultiDiGraph) (_path : List String) : Except PyErr (List Attrs) := do
  let lastNode ←
    match _path.getLast? with
    | some x => Except.ok x
    | Option.none => Except.error (PyErr.indexError "list index out of range")
  let lastA ← nodeAttrsE G lastNode
  let lastTy ← attrGetE lastA "type"
  let output_id :=
    get_primary_id_from_equivalent_ids ((alookup lastA "equivalent_ids").getD .none) lastTy
  let output_name :=
    get_name_from_equivalent_ids ((alookup lastA "equivalent_ids").getD .none) .none
  if _path.length = 3 then do
    let p0 ← listGetE _path 0
    let p1 ← listGetE _path 1
    let p2 ← listGetE _path 2
    let a1 ← nodeAttrsE G p1
    let n1ty ← attrGetE a1 "type"
    let node1_id :=
      get_primary_id_from_equivalent_ids ((alookup a1 "equivalent_ids").getD .none) n1ty
    let node1_name :=
      get_name_from_equivalent_ids ((alookup a1 "equivalent_ids").getD .none) .none
    let start_edges ← G.adjE p0 p1
    let end_edges ← G.adjE p1 p2
    mapME (row3M G p0 p1 p2 a1 node1_id node1_name output_id output_name)
      (listProd start_edges end_edges)
  else do
    let p0 ← listGetE _path 0
    let p1 ← listGetE _path 1
    let edges ← G.adjE p0 p1
    mapME (row2M G p0 p1 output_id output_name) edges

/-- Source `connect_networkx_to_pandas_df(G, paths)`: the list of row records.  The
final `pd.DataFrame(data)` construction and the optional exact-match filters
(`pred1`, `intermediate`, `intermediate_type`, `pred2`, all defaulting to
`None`, in which case no filtering happens) are external pandas
presentation, so the record list is the content of the function. -/
def connect_networkx_to_pandas_df (G : MultiDiGraph) (paths : List (List String)) :
    Except PyErr (List Attrs) := do
  let rowss ← mapME (processPath G) paths
  .ok (joinLists rowss)

/-- Row deduplication keeping first occurrences
(`pd.DataFrame(data).drop_duplicates()` on rows in the same column order). -/
def dedupRowsAux (seen : List Attrs) : List Attrs → List Attrs
  | [] => []
  | r :: rest =>
    if seen.any (fun x => pyBeqDict x r) then dedupRowsAux seen rest
    else r :: dedupRowsAux (r :: seen) rest

/-- Deduplicated rows. -/
def dedupRows (rows : List Attrs) : List Attrs := dedupRowsAux [] rows

/-- The body of `for i, edge in enumerate(path)` in
`connect_networkx_to_pandas_df_new` (source lines 174-194): assignments into
`path_data` in source order. -/
def process_df_new_edge (query_path : List PyVal) (path_len : Nat) (pd0 : Attrs)
    (ie : Nat × PyVal) : Except PyErr Attrs := do
  let i := ie.1
  let edge := ie.2
  let pd1 ←
    if i = 0 then do
      let inputV ← pySub edge "input"
      let is2 ←
        match inputV with
        | .str s => Except.ok s
        | _ => Except.error (PyErr.attributeError "split")
      let ic := lastSplit '-' is2
      let pdA :=
        if pyStartsWith ic "name:" then aset pd0 "input" (.str (ic.drop 5))
        else aset pd0 "input" (.str ic)
      match query_path.get? i with
      | some qv => Except.ok (aset pdA "input_type" qv)
      | Option.none => Except.error (PyErr.indexError "list index out of range")
    else Except.ok pd0
  let info ← pySub edge "info"
  let lbl ← pySub info "label"
  let lblS ← slice4 lbl
  let pd2 := aset pd1 ("pred" ++ toString (i + 1)) lblS
  let s ← retrieve_prop_from_edge info "source"
  let pd3 := aset pd2 ("pred" ++ toString (i + 1) ++ "_source") s
  let ap ← retrieve_prop_from_edge info "api"
  let pd4 := aset pd3 ("pred" ++ toString (i + 1) ++ "_api") ap
  let pm ← retrieve_prop_from_edge info "pubmed"
  let pd5 := aset pd4 ("pred" ++ toString (i + 1) ++ "_pubmed") pm
  let node := if i + 1 = path_len then "output" else "node" ++ toString (i + 1)
  let info2 ← pySub info "info"
  let ty ← pySub info2 "@type"
  let pd6 := aset pd5 (node ++ "_type") ty
  let outV ← pySub edge "output"
  let os ←
    match outV with
    | .str s2 => Except.ok s2
    | _ => Except.error (PyErr.attributeError "split")
  let oc := lastSplit '-' os
  let pd7 :=
    if pyStartsWith oc "name:" then aset pd6 (node ++ "_name") (.str (oc.drop 5))
    else aset pd6 (node ++ "_name") (.str oc)
  let pd8 := aset pd7 (node ++ "_id") (.str oc)
  .ok pd8

/-- One `path_data` record of `connect_networkx_to_pandas_df_new`. -/
def process_df_new_path (query_path : List PyVal) (path : List PyVal) :
    Except PyErr Attrs :=
  foldE (process_df_new_edge query_path path.length) [] path.enum

/-- Source `connect_networkx_to_pandas_df_new(current_graph, query_path)`: flattens
every edge-sequence path of every entry into a record and deduplicates
(`drop_duplicates`). -/
def connect_networkx_to_pandas_df_new
    (current_graph : List (String × List (List PyVal))) (query_path : List PyVal) :
    Except PyErr (List Attrs) := do
  let rows ← mapME (process_df_new_path query_path)
    (joinLists (current_graph.map (fun kv => kv.2)))
  .ok (dedupRows rows)

/-!
## Concrete data used by the scenario theorems and counterexamples
-/

/-- The structured object of the spec scenario for `load_res_to_networkx`. -/
def geneA_obj : Attrs :=
  [("@type", .str "Disease"), ("$source", .str "DISEASE_DB"),
   ("disease_id", .list [.str "D1", .str "D2"])]

/-- The response `{"geneA": {"@type": "Gene", "bts:ensembl": [geneA_obj]}}`. -/
def geneA_res : List (String × PyVal) :=
  [("geneA", .dict [("@type", .str "Gene"), ("bts:ensembl", .list [.dict geneA_obj])])]

/-- A graph containing the node `geneA` and nothing else. -/
def geneA_G0 : MultiDiGraph :=
  ⟨[("geneA", [("identifier", .str "bts:hgnc"), ("type", .str "Gene"), ("level", .int 1)])],
   []⟩

/-- A graph with one level-2 node whose (string) entity type contains a
comma. -/
def comma_graph : MultiDiGraph :=
  ⟨[("D1", [("identifier", .str "C"), ("type", .str "A,B"), ("level", .int 2)])], []⟩

/-- An edge data dict with label `bts:test` and some provenance. -/
def edge_ab : Attrs :=
  [("info", .dict [("$api", .str "api1"), ("$source", .str "s1")]),
   ("label", .str "bts:test"), ("source", .str "s1")]

/-- A small graph with nodes `a`, `b`, `d` and a single `a -> b` edge. -/
def path_graph : MultiDiGraph :=
  ⟨[("a", [("identifier", .str "bts:hgnc"), ("type", .str "Gene"), ("level", .int 1)]),
    ("b", [("identifier", .str "bts:dis"), ("type", .str "Disease"), ("level", .int 2)]),
    ("d", [("identifier", .str "bts:dis"), ("type", .str "Disease"), ("level", .int 2)])],
   [("a", "b", edge_ab)]⟩

/-- Attribute dicts that are non-empty must carry a `level` (otherwise the
level-2 comprehension raises). -/
def hasLevelWhenAttrs (y : Attrs) : Bool :=
  y.isEmpty || !(alookup y "level").isNone

/-- The attribute dict of a level-2 node. -/
def isLevel2Attrs (y : Attrs) : Bool :=
  !y.isEmpty &&
    (match alookup y "level" with
     | some lv => pyEqTwo lv
     | Option.none => false)

/-- The node carries a string entity type and a string identifier kind. -/
def level2HasStrPair (y : Attrs) : Bool :=
  match alookup y "type", alookup y "identifier" with
  | some (.str _), some (.str _) => true
  | _, _ => false

/-- One node attribute, read through the graph. -/
def nodeAttr (G : MultiDiGraph) (k attr : String) : Option PyVal :=
  (G.findNode k).bind (fun a => alookup a attr)

def setEq (G : MultiDiGraph) (key : String) (v : PyVal) : MultiDiGraph :=
  ⟨setNodeAttrsList key (fun a => aset a "equivalent_ids" v) G.nodes, G.edges⟩

/-- The step result carries a raised `KeyError`. -/
def ErrKeyR (r : MultiDiGraph × Option PyErr) : Prop :=
  ∃ s, r.2 = some (PyErr.keyError s)

def valueIterOK (oidt : List String) : PyVal → Prop
  | .dict ds => ∀ ij ∈ ds, (oidt.contains ij.1 && ij.2.truthy) = true →
      ∃ js, pyIter ij.2 = .ok js
  | _ => True

def IsErr {α : Type} (x : Except PyErr α) : Prop := ∃ e, x = .error e

/-- Edge dicts of the witness graph for the cartesian-product scenario. -/
def cart_e1 : Attrs := [("info", .dict []), ("label", .str "bts:p1")]

/-- Second hop-1 edge. -/
def cart_e2 : Attrs := [("info", .dict []), ("label", .str "bts:p2")]

/-- First hop-2 edge. -/
def cart_f1 : Attrs := [("info", .dict []), ("label", .str "bts:q1")]

/-- Second hop-2 edge. -/
def cart_f2 : Attrs := [("info", .dict []), ("label", .str "bts:q2")]

/-- Third hop-2 edge. -/
def cart_f3 : Attrs := [("info", .dict []), ("label", .str "bts:q3")]

/-- A graph with two parallel edges on hop `a -> b` and three on `b -> c`. -/
def cart_graph : MultiDiGraph :=
  ⟨[("a", [("type", .str "Gene"), ("level", .int 1)]),
    ("b", [("type", .str "ChemicalSubstance"), ("level", .int 2)]),
    ("c", [("type", .str "Disease"), ("level", .int 2)])],
   [("a", "b", cart_e1), ("a", "b", cart_e2),
    ("b", "c", cart_f1), ("b", "c", cart_f2), ("b", "c", cart_f3)]⟩

/-- A 3-node chain whose two edges carry the given labels. -/
def strip_graph3 (l1 l2 : String) : MultiDiGraph :=
  ⟨[("a", [("type", .str "Gene"), ("level", .int 1)]),
    ("b", [("type", .str "ChemicalSubstance"), ("level", .int 2)]),
    ("c", [("type", .str "Disease"), ("level", .int 2)])],
   [("a", "b", [("info", .dict []), ("label", .str l1)]),
    ("b", "c", [("info", .dict []), ("label", .str l2)])]⟩

/-- A 2-node graph whose single edge carries the given label. -/
def strip_graph2 (l : String) : MultiDiGraph :=
  ⟨[("a", [("type", .str "Gene"), ("level", .int 1)]),
    ("b", [("type", .str "Disease"), ("level", .int 2)])],
   [("a", "b", [("info", .dict []), ("label", .str l)])]⟩

/-- A one-edge edge-sequence input whose edge label is given. -/
def strip_paths_new (l : String) : List (String × List (List PyVal)) :=
  [("q", [[.dict [("input", .str "i1"), ("output", .str "o1"),
    ("info", .dict [("label", .str l),
                    ("info", .dict [("@type", .str "Disease")])])]]])]

/-- The string contains no comma. -/
def commaFree (s : String) : Bool := s.data.all (fun c => c != ',')

def level2WF (y : Attrs) : Bool :=
  if y.isEmpty then true
  else
    match alookup y "level" with
    | Option.none => false
    | some lv =>
      if pyEqTwo lv then
        match alookup y "type", alookup y "identifier" with
        | some (.str ts), some (.str is2) => commaFree ts && commaFree is2
        | _, _ => false
      else true

/-- A well-formed graph with two level-2 nodes of distinct
(type, identifier) pairs and one bare seed node. -/
def group_witness_graph : MultiDiGraph :=
  ⟨[("g1", [("identifier", .str "bts:ensembl"), ("type", .str "Gene"),
            ("level", .int 2)]),
    ("d1", [("identifier", .str "disease_id"), ("type", .str "Disease"),
            ("level", .int 2)]),
    ("s1", [])], []⟩

/-!
## Claim theorems
-/

/-- C1: loading the response
`{"geneA": {"@type": "Gene", "bts:ensembl": [{"@type": "Disease", "$source":
"DISEASE_DB", "disease_id": ["D1", "D2"]}]}}` with labels `{bts:ensembl}`,
output id types `{disease_id}` and id mapping `{geneA: geneA}` into a graph
containing the node `geneA` succeeds and yields level-2 nodes `D1` and `D2`
with entity type `Disease` and identifier kind `disease_id`, and exactly the
two edges `geneA -> D1` and `geneA -> D2`, each labelled `bts:ensembl` with
source `DISEASE_DB` and `info` the full structured object. -/
theorem load_res_scenario_geneA :
    (load_res_to_networkx geneA_res geneA_G0 ["bts:ensembl"] [("geneA", "geneA")]
        ["disease_id"]).2 = Option.none ∧
    (load_res_to_networkx geneA_res geneA_G0 ["bts:ensembl"] [("geneA", "geneA")]
        ["disease_id"]).1.findNode "D1" =
      some [("identifier", .str "disease_id"), ("type", .str "Disease"),
            ("level", .int 2)] ∧
    (load_res_to_networkx geneA_res geneA_G0 ["bts:ensembl"] [("geneA", "geneA")]
        ["disease_id"]).1.findNode "D2" =
      some [("identifier", .str "disease_id"), ("type", .str "Disease"),
            ("level", .int 2)] ∧
    (load_res_to_networkx geneA_res geneA_G0 ["bts:ensembl"] [("geneA", "geneA")]
        ["disease_id"]).1.edges =
      [("geneA", "D1",
        [("info", .dict geneA_obj), ("label", .str "bts:ensembl"),
         ("source", .str "DISEASE_DB")]),
       ("geneA", "D2",
        [("info", .dict geneA_obj), ("label", .str "bts:ensembl"),
         ("source", .str "DISEASE_DB")])] :=
  ⟨rfl, rfl, rfl, rfl⟩

/-- C10: the merge never mutates the incoming graph `G2`: its node list and
edge list (hence all its node and edge attributes) are unchanged, and the
value returned by `merge_two_networkx_graphs` is the extended `G1` state. -/
theorem merge_does_not_mutate_incoming (G1 G2 : MultiDiGraph) :
    (merge_two_networkx_graphs_state G1 G2).2.nodes = G2.nodes ∧
    (merge_two_networkx_graphs_state G1 G2).2.edges = G2.edges ∧
    merge_two_networkx_graphs G1 G2 = (merge_two_networkx_graphs_state G1 G2).1 :=
  ⟨rfl, rfl, rfl⟩

/-- C3 counterexample: for the edge-provenance dict
`{'info': {'$api': ''}}` the field `$api` is present and holds the scalar
string `''`, but `retrieve_prop_from_edge` returns `None`, not the value
itself: an empty (falsy) scalar is dropped by the `if data:` test. -/
theorem retrieve_prop_empty_scalar_counterexample :
    retrieve_prop_from_edge (.dict [("info", .dict [("$api", .str "")])]) "api" =
      .ok .none ∧
    (PyVal.none = PyVal.str "" → False) :=
  ⟨rfl, fun h => nomatch h⟩

/-- C6 counterexample: the call with the 4-node path `[a, b, X, d]`, where
`X` is not a node of the graph, does not raise: paths of length other than 3
only inspect `_path[-1]`, `_path[0]` and `_path[1]`, so the missing interior
node is silently ignored and a row is produced. -/
theorem connect_df_long_path_counterexample :
    connect_networkx_to_pandas_df path_graph [["a", "b", "X", "d"]] =
      .ok [[("input", .str "a"), ("input_type", .str "Gene"),
            ("pred1", .str "bts:test"), ("pred1_source", .str "s1"),
            ("pred1_api", .str "api1"), ("pred1_pubmed", .none),
            ("output_id", .none), ("output_name", .none),
            ("output_type", .str "Disease")]] ∧
    path_graph.hasNode "X" = false :=
  ⟨rfl, rfl⟩

/-- C7 counterexample: for the 2-node path `[a, b]` whose single edge has
label `bts:test`, the emitted `pred1` column holds the raw label
`bts:test`, not the prefix-stripped `test` that the other input shape and
the 3-node branch produce. -/
theorem connect_df_pred1_unstripped_counterexample :
    connect_networkx_to_pandas_df path_graph [["a", "b"]] =
      .ok [[("input", .str "a"), ("input_type", .str "Gene"),
            ("pred1", .str "bts:test"), ("pred1_source", .str "s1"),
            ("pred1_api", .str "api1"), ("pred1_pubmed", .none),
            ("output_id", .none), ("output_name", .none),
            ("output_type", .str "Disease")]] ∧
    ("bts:test" = String.drop "bts:test" 4 → False) :=
  ⟨rfl, by decide⟩

/-- C5 counterexample: `comma_graph` has all levels set and its only level-2
node carries a *string* entity type (`"A,B"`) and identifier kind (`"C"`),
yet `add_equivalent_ids_to_nodes` raises `ValueError` while unpacking
`"A,B,C".split(',')` and builds no resolver request at all, so the level-2
node key `D1` is in no group: grouping is keyed by the comma-join of the
pair, which is not injective on pairs containing commas. -/
theorem add_equivalent_ids_comma_counterexample :
    comma_graph.nodes.all
      (fun xy => hasLevelWhenAttrs xy.2 &&
        (!isLevel2Attrs xy.2 || level2HasStrPair xy.2)) = true ∧
    add_equivalent_ids_to_nodes comma_graph (fun _ => []) =
      ((comma_graph, []), some (.valueError "unpack")) :=
  ⟨rfl, rfl⟩

/-!
## Dictionary and graph lemmas
-/

theorem alookup_aset_self {α : Type} (d : List (String × α)) (k : String) (v : α) :
    alookup (aset d k v) k = some v := by
  induction d with
  | nil => simp [aset, alookup]
  | cons kv rest ih =>
    obtain ⟨k2, v2⟩ := kv
    by_cases h : k2 = k <;> simp [aset, alookup, h, ih]

theorem alookup_aset_ne {α : Type} (d : List (String × α)) (k key : String) (v : α)
    (h : k ≠ key) : alookup (aset d k v) key = alookup d key := by
  induction d with
  | nil => simp [aset, alookup, h]
  | cons kv rest ih =>
    obtain ⟨k2, v2⟩ := kv
    by_cases h2 : k2 = k
    · subst h2; simp [aset, alookup, h]
    · simp only [aset, if_neg h2]
      by_cases h3 : k2 = key <;> simp [alookup, h3, ih]

theorem aset_of_forall_ne {α : Type} (d : List (String × α)) (k : String) (v : α)
    (h : ∀ kv ∈ d, kv.1 ≠ k) : aset d k v = d ++ [(k, v)] := by
  induction d with
  | nil => simp [aset]
  | cons kv rest ih =>
    have hk : kv.1 ≠ k := h kv (by simp)
    obtain ⟨k2, v2⟩ := kv
    simp only [aset, if_neg hk]
    simp only [List.cons_append, List.cons.injEq, true_and]
    exact ih (fun kv2 hm => h kv2 (by simp [hm]))

theorem foldl_aset_of_disjoint {α : Type} (upd : List (String × α)) :
    ∀ acc : List (String × α), (upd.map Prod.fst).Nodup →
      (∀ kv ∈ upd, ∀ kv2 ∈ acc, kv2.1 ≠ kv.1) →
      upd.foldl (fun a kv => aset a kv.1 kv.2) acc = acc ++ upd := by
  induction upd with
  | nil => intro acc _ _; simp
  | cons kv rest ih =>
    intro acc hnd hdisj
    have hnd2 : (kv.1 :: rest.map Prod.fst).Nodup := by
      rw [← List.map_cons]; exact hnd
    have hk_not : kv.1 ∉ rest.map Prod.fst := (List.nodup_cons.mp hnd2).1
    have hndr : (rest.map Prod.fst).Nodup := (List.nodup_cons.mp hnd2).2
    have h1 : aset acc kv.1 kv.2 = acc ++ [kv] := by
      have := aset_of_forall_ne acc kv.1 kv.2
        (fun kv2 hm => hdisj kv (by simp) kv2 hm)
      simpa using this
    simp only [List.foldl_cons, h1]
    have := ih (acc ++ [kv]) hndr ?_
    · simpa using this
    · intro kv2 hm kv3 hm3
      rcases List.mem_append.mp hm3 with h | h
      · exact hdisj kv2 (by simp [hm]) kv3 h
      · simp only [List.mem_singleton] at h
        subst h
        intro hEq
        exact hk_not (hEq ▸ List.mem_map_of_mem Prod.fst hm)

theorem dictUpdate_nil {α : Type} (upd : List (String × α))
    (h : (upd.map Prod.fst).Nodup) : dictUpdate [] upd = upd := by
  have := foldl_aset_of_disjoint upd [] h (by simp)
  simpa [dictUpdate] using this

theorem findNodeL_append_some (ns ms : List (String × Attrs)) (k : String) (a : Attrs)
    (h : findNodeL ns k = some a) : findNodeL (ns ++ ms) k = some a := by
  induction ns with
  | nil => simp [findNodeL] at h
  | cons kv rest ih =>
    obtain ⟨k2, a2⟩ := kv
    simp only [findNodeL, List.cons_append] at h ⊢
    by_cases h2 : k2 = k
    · rw [if_pos h2] at h ⊢; exact h
    · rw [if_neg h2] at h ⊢; exact ih h

theorem findNodeL_append_none (ns ms : List (String × Attrs)) (k : String)
    (h : findNodeL ns k = Option.none) : findNodeL (ns ++ ms) k = findNodeL ms k := by
  induction ns with
  | nil => simp
  | cons kv rest ih =>
    obtain ⟨k2, a2⟩ := kv
    simp only [findNodeL, List.cons_append] at h ⊢
    by_cases h2 : k2 = k
    · rw [if_pos h2] at h; exact absurd h (by simp)
    · rw [if_neg h2] at h ⊢; exact ih h

theorem findNodeL_append_single_ne (ns : List (String × Attrs)) (k key : String)
    (a : Attrs) (h : k ≠ key) : findNodeL (ns ++ [(k, a)]) key = findNodeL ns key := by
  induction ns with
  | nil => simp [findNodeL, h]
  | cons kv rest ih =>
    obtain ⟨k2, a2⟩ := kv
    simp only [findNodeL, List.cons_append]
    by_cases h2 : k2 = key
    · rw [if_pos h2, if_pos h2]
    · rw [if_neg h2, if_neg h2]; exact ih

theorem findNodeL_setNodeAttrs_ne (ns : List (String × Attrs)) (k key : String)
    (f : Attrs → Attrs) (h : k ≠ key) :
    findNodeL (setNodeAttrsList k f ns) key = findNodeL ns key := by
  induction ns with
  | nil => simp [setNodeAttrsList]
  | cons kv rest ih =>
    obtain ⟨k2, a2⟩ := kv
    by_cases h2 : k2 = k
    · subst h2
      simp only [setNodeAttrsList, if_pos rfl, findNodeL]
      rw [if_neg h, if_neg h]
    · simp only [setNodeAttrsList, if_neg h2, findNodeL]
      by_cases h3 : k2 = key
      · rw [if_pos h3, if_pos h3]
      · rw [if_neg h3, if_neg h3]; exact ih

theorem findNodeL_mem (ns : List (String × Attrs)) (k : String) (a : Attrs)
    (h : findNodeL ns k = some a) : (k, a) ∈ ns := by
  induction ns with
  | nil => simp [findNodeL] at h
  | cons kv rest ih =>
    obtain ⟨k2, a2⟩ := kv
    by_cases h2 : k2 = k
    · subst h2
      have h3 : a2 = a := by simpa [findNodeL] using h
      subst h3
      simp
    · simp only [findNodeL, if_neg h2] at h
      simp [ih h]

theorem findNode_mem (G : MultiDiGraph) (k : String) (a : Attrs)
    (h : G.findNode k = some a) : (k, a) ∈ G.nodes :=
  findNodeL_mem G.nodes k a h

theorem add_node_findNode_ne (G : MultiDiGraph) (k key : String) (attrs : Attrs)
    (h : k ≠ key) : (G.add_node k attrs).findNode key = G.findNode key := by
  unfold MultiDiGraph.add_node
  by_cases h2 : G.hasNode k
  · simp only [if_pos h2]
    exact findNodeL_setNodeAttrs_ne G.nodes k key _ h
  · simp only [if_neg h2]
    exact findNodeL_append_single_ne G.nodes k key _ h

theorem add_node_edges (G : MultiDiGraph) (k : String) (attrs : Attrs) :
    (G.add_node k attrs).edges = G.edges := by
  unfold MultiDiGraph.add_node
  by_cases h : G.hasNode k <;> simp [h]

theorem add_nodes_from_data_findNode_ne (xs : List (String × Attrs)) :
    ∀ G : MultiDiGraph, ∀ key : String, (∀ kv ∈ xs, kv.1 ≠ key) →
      (G.add_nodes_from_data xs).findNode key = G.findNode key := by
  induction xs with
  | nil => intro G key _; rfl
  | cons kv rest ih =>
    intro G key h
    have h1 : kv.1 ≠ key := h kv (by simp)
    show ((G.add_node kv.1 kv.2).add_nodes_from_data rest).findNode key = _
    rw [ih _ key (fun kv2 hm => h kv2 (by simp [hm]))]
    exact add_node_findNode_ne G kv.1 key kv.2 h1

theorem add_nodes_from_data_edges (xs : List (String × Attrs)) :
    ∀ G : MultiDiGraph, (G.add_nodes_from_data xs).edges = G.edges := by
  induction xs with
  | nil => intro G; rfl
  | cons kv rest ih =>
    intro G
    show ((G.add_node kv.1 kv.2).add_nodes_from_data rest).edges = _
    rw [ih, add_node_edges]

theorem ensureNode_findNode_some (G : MultiDiGraph) (u key : String) (a : Attrs)
    (h : G.findNode key = some a) : (G.ensureNode u).findNode key = some a := by
  unfold MultiDiGraph.ensureNode
  by_cases h2 : G.hasNode u
  · simp [h2, h]
  · simp only [if_neg h2]
    exact findNodeL_append_some G.nodes _ key a h

theorem ensureNode_edges (G : MultiDiGraph) (u : String) :
    (G.ensureNode u).edges = G.edges := by
  unfold MultiDiGraph.ensureNode
  by_cases h : G.hasNode u <;> simp [h]

theorem add_edge_findNode_some (G : MultiDiGraph) (u v key : String) (attrs a : Attrs)
    (h : G.findNode key = some a) : (G.add_edge u v attrs).findNode key = some a := by
  unfold MultiDiGraph.add_edge
  exact ensureNode_findNode_some _ v key a (ensureNode_findNode_some G u key a h)

theorem add_edge_edges (G : MultiDiGraph) (u v : String) (attrs : Attrs) :
    (G.add_edge u v attrs).edges = G.edges ++ [(u, v, dictUpdate [] attrs)] := by
  show ((G.ensureNode u).ensureNode v).edges ++ [(u, v, dictUpdate [] attrs)] = _
  rw [ensureNode_edges, ensureNode_edges]

theorem add_edges_from_findNode_some (es : List (String × String × Attrs)) :
    ∀ G : MultiDiGraph, ∀ key : String, ∀ a : Attrs, G.findNode key = some a →
      (G.add_edges_from es).findNode key = some a := by
  induction es with
  | nil => intro G key a h; exact h
  | cons e rest ih =>
    intro G key a h
    show ((G.add_edge e.1 e.2.1 e.2.2).add_edges_from rest).findNode key = some a
    exact ih _ key a (add_edge_findNode_some G e.1 e.2.1 key e.2.2 a h)

theorem add_edges_from_edges (es : List (String × String × Attrs)) :
    ∀ G : MultiDiGraph, (G.add_edges_from es).edges =
      G.edges ++ es.map (fun e => (e.1, e.2.1, dictUpdate [] e.2.2)) := by
  induction es with
  | nil => intro G; simp [MultiDiGraph.add_edges_from]
  | cons e rest ih =>
    intro G
    show ((G.add_edge e.1 e.2.1 e.2.2).add_edges_from rest).edges = _
    rw [ih, add_edge_edges]
    simp

theorem hasNode_false_of_findNode_none (G : MultiDiGraph) (k : String)
    (h : G.findNode k = Option.none) : G.hasNode k = false := by
  simp [MultiDiGraph.hasNode, h]

theorem add_nodes_from_data_fresh (xs : List (String × Attrs)) :
    ∀ G : MultiDiGraph, ∀ k : String, ∀ v : Attrs,
      (xs.map Prod.fst).Nodup → (k, v) ∈ xs → G.findNode k = Option.none →
      (v.map Prod.fst).Nodup → (G.add_nodes_from_data xs).findNode k = some v := by
  induction xs with
  | nil => intro G k v _ hm; simp at hm
  | cons kv rest ih =>
    intro G k v hnd hm hnone hvnd
    have hndc : (kv.1 :: rest.map Prod.fst).Nodup := by
      rw [← List.map_cons]; exact hnd
    have hnd1 : kv.1 ∉ rest.map Prod.fst := (List.nodup_cons.mp hndc).1
    have hnd2 : (rest.map Prod.fst).Nodup := (List.nodup_cons.mp hndc).2
    rcases List.mem_cons.mp hm with h | h
    · have hkv : kv = (k, v) := h.symm
      subst hkv
      show ((G.add_node k v).add_nodes_from_data rest).findNode k = some v
      have hfresh : G.hasNode k = false := hasNode_false_of_findNode_none G k hnone
      have hstep : (G.add_node k v).findNode k = some v := by
        unfold MultiDiGraph.add_node
        rw [hfresh]
        simp only [Bool.false_eq_true, if_false]
        show findNodeL (G.nodes ++ [(k, dictUpdate [] v)]) k = some v
        rw [dictUpdate_nil v hvnd]
        rw [findNodeL_append_none G.nodes _ k hnone]
        simp [findNodeL]
      rw [add_nodes_from_data_findNode_ne rest _ k ?_]
      · exact hstep
      · intro kv2 hm2 hEq
        have hmem : kv2.1 ∈ rest.map Prod.fst := List.mem_map_of_mem Prod.fst hm2
        rw [hEq] at hmem
        exact hnd1 hmem
    · have hne : kv.1 ≠ k := by
        intro hEq
        have : (k, v).1 ∈ rest.map Prod.fst := List.mem_map_of_mem Prod.fst h
        exact hnd1 (by simpa [hEq] using this)
      show ((G.add_node kv.1 kv.2).add_nodes_from_data rest).findNode k = some v
      refine ih _ k v hnd2 h ?_ hvnd
      rw [add_node_findNode_ne G kv.1 k kv.2 hne]
      exact hnone

theorem map_id_of_forall {α : Type} (f : α → α) (l : List α)
    (h : ∀ x ∈ l, f x = x) : l.map f = l := by
  induction l with
  | nil => rfl
  | cons x rest ih => simp [h x (by simp), ih (fun y hy => h y (by simp [hy]))]

/-- C4: merging leaves the base attributes of every shared node untouched,
adds every node of the incoming graph that is absent from the base graph
with all its attributes, and appends every incoming edge unconditionally
(well-formed dicts assumed where stated: real Python dicts have distinct
keys). -/
theorem merge_preserves_base_attrs (G1 G2 : MultiDiGraph) :
    (∀ X a, G1.findNode X = some a →
      (merge_two_networkx_graphs G1 G2).findNode X = some a) ∧
    (∀ k v, G1.findNode k = Option.none → G2.findNode k = some v →
      (G2.nodes.map Prod.fst).Nodup → (v.map Prod.fst).Nodup →
      (merge_two_networkx_graphs G1 G2).findNode k = some v) ∧
    ((∀ e ∈ G2.edges, ((e.2.2 : Attrs).map Prod.fst).Nodup) →
      (merge_two_networkx_graphs G1 G2).edges = G1.edges ++ G2.edges) := by
  refine ⟨?_, ?_, ?_⟩
  · intro X a h
    show ((G1.add_nodes_from_data
      (G2.nodes.filter (fun kv => !G1.hasNode kv.1))).add_edges_from G2.edges).findNode X
      = some a
    apply add_edges_from_findNode_some
    rw [add_nodes_from_data_findNode_ne]
    · exact h
    · intro kv hm hEq
      have := (List.mem_filter.mp hm).2
      rw [hEq] at this
      simp [MultiDiGraph.hasNode, h] at this
  · intro k v hnone hsome hnd hvnd
    show ((G1.add_nodes_from_data
      (G2.nodes.filter (fun kv => !G1.hasNode kv.1))).add_edges_from G2.edges).findNode k
      = some v
    apply add_edges_from_findNode_some
    apply add_nodes_from_data_fresh _ _ k v ?_ ?_ hnone hvnd
    · exact List.Nodup.sublist (List.Sublist.map _ (List.filter_sublist _)) hnd
    · exact List.mem_filter.mpr ⟨findNode_mem G2 k v hsome, by
        simp [hasNode_false_of_findNode_none G1 k hnone]⟩
  · intro hnd
    show ((G1.add_nodes_from_data
      (G2.nodes.filter (fun kv => !G1.hasNode kv.1))).add_edges_from G2.edges).edges
      = G1.edges ++ G2.edges
    rw [add_edges_from_edges, add_nodes_from_data_edges]
    congr 1
    apply map_id_of_forall
    intro e he
    have h1 := dictUpdate_nil e.2.2 (hnd e he)
    rw [h1]

/-- C4 witness: a concrete merge where node `B` is shared (base attributes
kept), node `C` is new (incoming attributes kept) and the single incoming
edge is appended. -/
theorem merge_preserves_base_attrs_witness :
    (merge_two_networkx_graphs
        ⟨[("A", [("level", .int 1)]), ("B", [("type", .str "Gene")])], []⟩
        ⟨[("B", [("type", .str "Disease")]), ("C", [("level", .int 2)])],
         [("B", "C", [("label", .str "bts:x")])]⟩).findNode "B" =
      some [("type", .str "Gene")] ∧
    (merge_two_networkx_graphs
        ⟨[("A", [("level", .int 1)]), ("B", [("type", .str "Gene")])], []⟩
        ⟨[("B", [("type", .str "Disease")]), ("C", [("level", .int 2)])],
         [("B", "C", [("label", .str "bts:x")])]⟩).findNode "C" =
      some [("level", .int 2)] ∧
    (merge_two_networkx_graphs
        ⟨[("A", [("level", .int 1)]), ("B", [("type", .str "Gene")])], []⟩
        ⟨[("B", [("type", .str "Disease")]), ("C", [("level", .int 2)])],
         [("B", "C", [("label", .str "bts:x")])]⟩).edges =
      [] ++ [("B", "C", [("label", .str "bts:x")])] := by
  refine ⟨(merge_preserves_base_attrs _ _).1 "B" _ rfl,
          (merge_preserves_base_attrs _ _).2.1 "C" [("level", .int 2)] rfl rfl
            (by simp) (by simp),
          (merge_preserves_base_attrs _ _).2.2 ?_⟩
  intro e he
  simp only [List.mem_singleton] at he
  subst he
  simp

/-!
## C9: the attachment loop of `add_equivalent_ids_to_nodes`
-/

/-- The graph after one write `G.node[key]['equivalent_ids'] = v`. -/
theorem findNodeL_setNodeAttrs_self (ns : List (String × Attrs)) (k : String)
    (f : Attrs → Attrs) :
    findNodeL (setNodeAttrsList k f ns) k = (findNodeL ns k).map f := by
  induction ns with
  | nil => simp [setNodeAttrsList, findNodeL]
  | cons kv rest ih =>
    obtain ⟨k2, a2⟩ := kv
    by_cases h2 : k2 = k
    · subst h2
      simp [setNodeAttrsList, findNodeL]
    · simp only [setNodeAttrsList, if_neg h2, findNodeL, ih]

theorem setEq_hasNode (G : MultiDiGraph) (k key : String) (v : PyVal) :
    (setEq G k v).hasNode key = G.hasNode key := by
  unfold MultiDiGraph.hasNode MultiDiGraph.findNode setEq
  by_cases h : k = key
  · subst h
    rw [findNodeL_setNodeAttrs_self]
    cases findNodeL G.nodes k <;> simp
  · rw [findNodeL_setNodeAttrs_ne G.nodes k key _ h]

theorem attach_cons_true (G : MultiDiGraph) (mn : String × PyVal)
    (tail : List (String × PyVal)) (hn : G.hasNode (splitColonTail mn.1) = true) :
    attach_equivalent_ids G (mn :: tail) =
      attach_equivalent_ids (setEq G (splitColonTail mn.1) mn.2) tail := by
  show stFold _ G (mn :: tail) = _
  rw [stFold]
  simp only [hn, if_pos]
  rfl

theorem attach_cons_false (G : MultiDiGraph) (mn : String × PyVal)
    (tail : List (String × PyVal)) (hn : G.hasNode (splitColonTail mn.1) = false) :
    attach_equivalent_ids G (mn :: tail) = (G, some (.keyError (splitColonTail mn.1))) := by
  show stFold _ G (mn :: tail) = _
  rw [stFold]
  simp only [hn, Bool.false_eq_true, if_false]

theorem attach_preserves_other (rest : List (String × PyVal)) :
    ∀ G : MultiDiGraph, ∀ key attr : String,
      (∀ mn ∈ rest, splitColonTail mn.1 ≠ key) →
      nodeAttr (attach_equivalent_ids G rest).1 key attr = nodeAttr G key attr := by
  induction rest with
  | nil => intro G key attr _; rfl
  | cons mn tail ih =>
    intro G key attr h
    have hne : splitColonTail mn.1 ≠ key := h mn (by simp)
    by_cases hn : G.hasNode (splitColonTail mn.1)
    · rw [attach_cons_true G mn tail hn]
      rw [ih _ key attr (fun mn2 hm => h mn2 (by simp [hm]))]
      unfold nodeAttr MultiDiGraph.findNode setEq
      rw [findNodeL_setNodeAttrs_ne _ _ _ _ hne]
    · rw [attach_cons_false G mn tail (by simpa using hn)]

/-- C9: each resolved mapping under key `m` is attached as `equivalent_ids`
of the node whose key is `m` with everything up to and including the first
colon removed (`m.split(':', 1)[-1]`); when some stripped key is not a node
the call raises `KeyError`, and when all stripped keys are (distinct) node
keys the loop finishes cleanly with every target node carrying its
mapping. -/
theorem attach_equivalent_ids_spec (G : MultiDiGraph) (E : List (String × PyVal)) :
    ((∃ mn ∈ E, G.hasNode (splitColonTail mn.1) = false) →
      ∃ G2 s, attach_equivalent_ids G E = (G2, some (.keyError s))) ∧
    ((∀ mn ∈ E, G.hasNode (splitColonTail mn.1) = true) →
      (E.map (fun mn => splitColonTail mn.1)).Nodup →
      (attach_equivalent_ids G E).2 = Option.none ∧
      ∀ mn ∈ E, nodeAttr (attach_equivalent_ids G E).1 (splitColonTail mn.1)
        "equivalent_ids" = some mn.2) := by
  induction E generalizing G with
  | nil =>
    refine ⟨?_, ?_⟩
    · intro h
      simp at h
    · intro _ _
      exact ⟨rfl, by intro mn hm; simp at hm⟩
  | cons mn tail ih =>
    refine ⟨?_, ?_⟩
    · intro h
      by_cases hn : G.hasNode (splitColonTail mn.1)
      · rw [attach_cons_true G mn tail hn]
        rcases h with ⟨mn2, hm2, hbad⟩
        rcases List.mem_cons.mp hm2 with hEq | hm2t
        · subst hEq
          rw [hn] at hbad
          exact absurd hbad (by simp)
        · refine (ih _).1 ⟨mn2, hm2t, ?_⟩
          rw [setEq_hasNode]
          exact hbad
      · rw [attach_cons_false G mn tail (by simpa using hn)]
        exact ⟨G, splitColonTail mn.1, rfl⟩
    · intro hall hnd
      have hn : G.hasNode (splitColonTail mn.1) = true := hall mn (by simp)
      rw [List.map_cons] at hnd
      have hnot : splitColonTail mn.1 ∉ tail.map (fun mn2 => splitColonTail mn2.1) :=
        (List.nodup_cons.mp hnd).1
      have hndt : (tail.map (fun mn2 => splitColonTail mn2.1)).Nodup :=
        (List.nodup_cons.mp hnd).2
      rw [attach_cons_true G mn tail hn]
      have hall2 : ∀ mn2 ∈ tail,
          (setEq G (splitColonTail mn.1) mn.2).hasNode (splitColonTail mn2.1) = true := by
        intro mn2 hm
        rw [setEq_hasNode]
        exact hall mn2 (by simp [hm])
      have hihr := (ih (setEq G (splitColonTail mn.1) mn.2)).2 hall2 hndt
      refine ⟨hihr.1, ?_⟩
      intro mn2 hm2
      rcases List.mem_cons.mp hm2 with hEq | hm2t
      · subst hEq
        have hother : nodeAttr (attach_equivalent_ids
            (setEq G (splitColonTail mn2.1) mn2.2) tail).1 (splitColonTail mn2.1)
            "equivalent_ids" =
            nodeAttr (setEq G (splitColonTail mn2.1) mn2.2) (splitColonTail mn2.1)
              "equivalent_ids" := by
          apply attach_preserves_other
          intro mn3 hm3 hEq3
          exact hnot (by
            rw [← hEq3]
            exact List.mem_map_of_mem (fun mn4 => splitColonTail mn4.1) hm3)
        rw [hother]
        unfold MultiDiGraph.hasNode at hn
        rcases Option.isSome_iff_exists.mp hn with ⟨a, ha⟩
        unfold nodeAttr MultiDiGraph.findNode setEq
        rw [findNodeL_setNodeAttrs_self]
        unfold MultiDiGraph.findNode at ha
        rw [ha]
        simp [alookup_aset_self]
      · exact hihr.2 mn2 hm2t

/-- C9 witness: one resolved key `umls:D1` is stripped to the node key `D1`
and its mapping is attached; a key stripping to the missing node `ZZ`
raises `KeyError`. -/
theorem attach_equivalent_ids_spec_witness :
    nodeAttr (attach_equivalent_ids comma_graph
        [("umls:D1", .dict [("name", .list [.str "x"])])]).1 "D1" "equivalent_ids" =
      some (.dict [("name", .list [.str "x"])]) ∧
    (∃ G2 s, attach_equivalent_ids comma_graph [("umls:ZZ", .none)] =
      (G2, some (.keyError s))) := by
  constructor
  · have h := ((attach_equivalent_ids_spec comma_graph
        [("umls:D1", .dict [("name", .list [.str "x"])])]).2
        (by
          intro mn hm
          rw [List.mem_singleton] at hm
          subst hm
          rfl)
        (by simp)).2
        ("umls:D1", .dict [("name", .list [.str "x"])]) (by simp)
    exact h
  · exact (attach_equivalent_ids_spec comma_graph [("umls:ZZ", .none)]).1
      ⟨("umls:ZZ", .none), by simp, rfl⟩

/-!
## C8: missing `@type` on a scalar value raises `KeyError`
-/

/-- Every nested id list that the dict branch would iterate is iterable
(well-formed input: the id lists are real lists). -/
theorem stFold_append_ok {α : Type} (f : MultiDiGraph → α → MultiDiGraph × Option PyErr)
    (xs : List α) : ∀ {G G2 : MultiDiGraph}, ∀ ys : List α,
      stFold f G xs = (G2, Option.none) → stFold f G (xs ++ ys) = stFold f G2 ys := by
  induction xs with
  | nil =>
    intro G G2 ys h
    simp only [stFold] at h
    injection h with h1 h2
    subst h1
    rfl
  | cons x rest ih =>
    intro G G2 ys h
    rw [List.cons_append]
    rw [stFold] at h ⊢
    cases hfx : f G x with
    | mk Gx ox =>
      rw [hfx] at h
      cases ox with
      | none => exact ih ys h
      | some e => simp at h

theorem stFold_cons_err {α : Type} (f : MultiDiGraph → α → MultiDiGraph × Option PyErr)
    (G G2 : MultiDiGraph) (x : α) (xs : List α) (e : PyErr)
    (h : f G x = (G2, some e)) : stFold f G (x :: xs) = (G2, some e) := by
  rw [stFold, h]

theorem stFold_keyOnly {α : Type} (f : MultiDiGraph → α → MultiDiGraph × Option PyErr)
    (xs : List α)
    (h : ∀ x ∈ xs, ∀ G, (f G x).2 = Option.none ∨ ErrKeyR (f G x)) :
    ∀ G, (stFold f G xs).2 = Option.none ∨ ErrKeyR (stFold f G xs) := by
  induction xs with
  | nil => intro G; exact Or.inl rfl
  | cons x rest ih =>
    intro G
    rw [stFold]
    cases hfx : f G x with
    | mk Gx ox =>
      cases ox with
      | none => exact ih (fun y hy => h y (by simp [hy])) Gx
      | some e =>
        rcases h x (by simp) G with hn | hk
        · rw [hfx] at hn; simp at hn
        · rw [hfx] at hk
          exact Or.inr hk

theorem stFold_alwaysKey {α : Type} (f : MultiDiGraph → α → MultiDiGraph × Option PyErr)
    (xs : List α)
    (hko : ∀ x ∈ xs, ∀ G, (f G x).2 = Option.none ∨ ErrKeyR (f G x))
    (hex : ∃ x ∈ xs, ∀ G, ErrKeyR (f G x)) :
    ∀ G, ErrKeyR (stFold f G xs) := by
  induction xs with
  | nil => rcases hex with ⟨x, hx, -⟩; simp at hx
  | cons y rest ih =>
    intro G
    rw [stFold]
    cases hfy : f G y with
    | mk Gy oy =>
      cases oy with
      | some e =>
        rcases hko y (by simp) G with hn | hk
        · rw [hfy] at hn; simp at hn
        · rw [hfy] at hk; exact hk
      | none =>
        rcases hex with ⟨x, hx, hxk⟩
        rcases List.mem_cons.mp hx with hEq | hxt
        · subst hEq
          rcases hxk G with ⟨s, hs⟩
          rw [hfy] at hs
          simp at hs
        · exact ih (fun z hz => hko z (by simp [hz])) ⟨x, hxt, hxk⟩ Gy

theorem load_value_scalar_noType (idm : List (String × String)) (oidt : List String)
    (m a : String) (ne2 : List (String × PyVal)) (_b : PyVal)
    (hd : _b.isDict = false) (hnoty : alookup ne2 "@type" = Option.none) :
    ∀ G, load_value idm oidt m a ne2 G _b = (G, some (.keyError "@type")) := by
  intro G
  cases _b with
  | dict ds => simp [PyVal.isDict] at hd
  | none => simp [load_value, hnoty]
  | str s => simp [load_value, hnoty]
  | int n => simp [load_value, hnoty]
  | list xs => simp [load_value, hnoty]

theorem load_value_keyOnly (idm : List (String × String)) (oidt : List String)
    (m a : String) (ne2 : List (String × PyVal)) (_b : PyVal)
    (hwf : valueIterOK oidt _b) :
    ∀ G, (load_value idm oidt m a ne2 G _b).2 = Option.none ∨
      ErrKeyR (load_value idm oidt m a ne2 G _b) := by
  intro G
  cases _b with
  | dict ds =>
    show (stFold _ G ds).2 = Option.none ∨ ErrKeyR (stFold _ G ds)
    apply stFold_keyOnly
    intro ij hij G2
    by_cases hacc : (oidt.contains ij.1 && ij.2.truthy) = true
    · rcases hwf ij hij hacc with ⟨js, hjs⟩
      simp only [hacc, if_pos, hjs]
      apply stFold_keyOnly
      intro _j _ G3
      cases hlm : alookup idm m with
      | none => exact Or.inr ⟨m, by simp [hlm]⟩
      | some src => simp [hlm]
    · have hacc2 : ¬(ij.1 ∈ oidt ∧ ij.2.truthy = true) := by
        intro hc
        have hc2 : (oidt.contains ij.1 && ij.2.truthy) = true := by
          simp [hc.1, hc.2]
        exact hacc hc2
      simp [hacc2]
  | none =>
    cases hty : alookup ne2 "@type" with
    | none => exact Or.inr ⟨"@type", by simp [load_value, hty]⟩
    | some ty =>
      cases hlm : alookup idm m with
      | none => exact Or.inr ⟨m, by simp [load_value, hty, hlm]⟩
      | some src => simp [load_value, hty, hlm]
  | str s =>
    cases hty : alookup ne2 "@type" with
    | none => exact Or.inr ⟨"@type", by simp [load_value, hty]⟩
    | some ty =>
      cases hlm : alookup idm m with
      | none => exact Or.inr ⟨m, by simp [load_value, hty, hlm]⟩
      | some src => simp [load_value, hty, hlm]
  | int n =>
    cases hty : alookup ne2 "@type" with
    | none => exact Or.inr ⟨"@type", by simp [load_value, hty]⟩
    | some ty =>
      cases hlm : alookup idm m with
      | none => exact Or.inr ⟨m, by simp [load_value, hty, hlm]⟩
      | some src => simp [load_value, hty, hlm]
  | list xs =>
    cases hty : alookup ne2 "@type" with
    | none => exact Or.inr ⟨"@type", by simp [load_value, hty]⟩
    | some ty =>
      cases hlm : alookup idm m with
      | none => exact Or.inr ⟨m, by simp [load_value, hty, hlm]⟩
      | some src => simp [load_value, hty, hlm]

theorem load_prop_keyOnly (labels : List String) (idm : List (String × String))
    (oidt : List String) (m : String) (ne2 : List (String × PyVal))
    (ab : String × PyVal)
    (hwf : labels.contains ab.1 = true →
      ∃ bs, pyIter ab.2 = .ok bs ∧ ∀ v ∈ bs, valueIterOK oidt v) :
    ∀ G, (load_prop labels idm oidt m ne2 G ab).2 = Option.none ∨
      ErrKeyR (load_prop labels idm oidt m ne2 G ab) := by
  intro G
  by_cases hacc : labels.contains ab.1 = true
  · rcases hwf hacc with ⟨bs, hbs, hvwf⟩
    unfold load_prop
    simp only [hacc, if_pos, hbs]
    exact stFold_keyOnly _ bs
      (fun v hv G2 => load_value_keyOnly idm oidt m ab.1 ne2 v (hvwf v hv) G2) G
  · have hacc2 : ab.1 ∉ labels := by
      intro hmem2
      exact hacc (by simpa using hmem2)
    simp [load_prop, hacc2]

theorem load_prop_target_alwaysKey (labels : List String) (idm : List (String × String))
    (oidt : List String) (m a : String) (ne2 : List (String × PyVal)) (b _b : PyVal)
    (bs : List PyVal) (hacc : labels.contains a = true) (hiter : pyIter b = .ok bs)
    (hwfbs : ∀ v ∈ bs, valueIterOK oidt v) (hbmem : _b ∈ bs)
    (hscal : _b.isDict = false) (hnoty : alookup ne2 "@type" = Option.none) :
    ∀ G, ErrKeyR (load_prop labels idm oidt m ne2 G (a, b)) := by
  intro G
  unfold load_prop
  simp only [hacc, if_pos, hiter]
  apply stFold_alwaysKey
  · exact fun v hv G2 => load_value_keyOnly idm oidt m a ne2 v (hwfbs v hv) G2
  · refine ⟨_b, hbmem, fun G2 => ?_⟩
    rw [load_value_scalar_noType idm oidt m a ne2 _b hscal hnoty G2]
    exact ⟨"@type", rfl⟩

theorem load_entry_target_alwaysKey (labels : List String) (idm : List (String × String))
    (oidt : List String) (m a : String) (ne2 : List (String × PyVal)) (b _b : PyVal)
    (bs : List PyVal) (hmem : (a, b) ∈ ne2) (hacc : labels.contains a = true)
    (hiter : pyIter b = .ok bs) (hbmem : _b ∈ bs) (hscal : _b.isDict = false)
    (hnoty : alookup ne2 "@type" = Option.none)
    (hwf : ∀ ab ∈ ne2, labels.contains ab.1 = true →
      ∃ bs2, pyIter ab.2 = .ok bs2 ∧ ∀ v ∈ bs2, valueIterOK oidt v) :
    ∀ G, ErrKeyR (load_entry labels idm oidt G (m, .dict ne2)) := by
  intro G
  have hne : ne2 ≠ [] := by
    intro h
    rw [h] at hmem
    simp at hmem
  have htr : (PyVal.dict ne2).truthy = true := by
    simp [PyVal.truthy, hne]
  unfold load_entry
  simp only [htr, if_pos]
  show ErrKeyR (match pyItems (.dict ne2) with
    | .error e => (G, some e)
    | .ok kvs => stFold (load_prop labels idm oidt m kvs) G kvs)
  show ErrKeyR (stFold (load_prop labels idm oidt m ne2) G ne2)
  apply stFold_alwaysKey
  · exact fun ab hab G2 => load_prop_keyOnly labels idm oidt m ne2 ab (hwf ab hab) G2
  · refine ⟨(a, b), hmem, fun G2 => ?_⟩
    rcases hwf (a, b) hmem hacc with ⟨bs2, hbs2, hwf2⟩
    have hbs2eq : bs2 = bs := by
      rw [hiter] at hbs2
      exact (Except.ok.injEq .. ▸ hbs2).symm
    subst hbs2eq
    exact load_prop_target_alwaysKey labels idm oidt m a ne2 b _b bs2 hacc hiter hwf2
      hbmem hscal hnoty G2

/-- C8: if a truthy response object `n` has an accepted property whose value
list contains a scalar (non-dict) element and `n` itself has no `@type` key,
then (with the other accepted values iterable, and whatever of the response
was already processed cleanly) the whole call raises `KeyError`, the entries
after the offending one are never processed, and the failing step itself
leaves the graph unchanged: the level-2 node for the scalar is not created
because `n["@type"]` is evaluated before `add_node`. -/
theorem load_res_missing_type_keyerror (G G1 : MultiDiGraph) (labels : List String)
    (idm : List (String × String)) (oidt : List String)
    (pre post : List (String × PyVal)) (m a : String)
    (ne2 : List (String × PyVal)) (b _b : PyVal) (bs : List PyVal)
    (hmem : (a, b) ∈ ne2) (hacc : labels.contains a = true)
    (hiter : pyIter b = .ok bs) (hbmem : _b ∈ bs) (hscal : _b.isDict = false)
    (hnoty : alookup ne2 "@type" = Option.none)
    (hwf : ∀ ab ∈ ne2, labels.contains ab.1 = true →
      ∃ bs2, pyIter ab.2 = .ok bs2 ∧ ∀ v ∈ bs2, valueIterOK oidt v)
    (hpre : stFold (load_entry labels idm oidt) G pre = (G1, Option.none)) :
    (∃ G2 s, load_res_to_networkx (pre ++ (m, .dict ne2) :: post) G labels idm oidt =
      (G2, some (.keyError s))) ∧
    load_res_to_networkx (pre ++ (m, .dict ne2) :: post) G labels idm oidt =
      load_res_to_networkx (pre ++ [(m, .dict ne2)]) G labels idm oidt ∧
    (∀ G3, load_value idm oidt m a ne2 G3 _b = (G3, some (.keyError "@type"))) := by
  have hkey := load_entry_target_alwaysKey labels idm oidt m a ne2 b _b bs hmem hacc
    hiter hbmem hscal hnoty hwf G1
  cases hentry : load_entry labels idm oidt G1 (m, .dict ne2) with
  | mk G2 oe =>
    rcases hkey with ⟨s, hs⟩
    rw [hentry] at hs
    simp only at hs
    subst hs
    have hempty1 : (pre ++ (m, PyVal.dict ne2) :: post).isEmpty = false := by
      cases pre <;> rfl
    have hempty2 : (pre ++ [(m, PyVal.dict ne2)]).isEmpty = false := by
      cases pre <;> rfl
    have hfold1 : load_res_to_networkx (pre ++ (m, .dict ne2) :: post) G labels idm oidt =
        (G2, some (.keyError s)) := by
      unfold load_res_to_networkx
      rw [hempty1]
      simp only [Bool.false_eq_true, if_false]
      rw [stFold_append_ok _ pre _ hpre]
      exact stFold_cons_err _ G1 G2 _ post _ hentry
    have hfold2 : load_res_to_networkx (pre ++ [(m, .dict ne2)]) G labels idm oidt =
        (G2, some (.keyError s)) := by
      unfold load_res_to_networkx
      rw [hempty2]
      simp only [Bool.false_eq_true, if_false]
      rw [stFold_append_ok _ pre _ hpre]
      exact stFold_cons_err _ G1 G2 _ [] _ hentry
    refine ⟨⟨G2, s, hfold1⟩, hfold1.trans hfold2.symm, ?_⟩
    exact load_value_scalar_noType idm oidt m a ne2 _b hscal hnoty

/-- C8 witness: a one-entry response whose accepted property holds the
scalar `"v1"` while the object lacks `@type` raises `KeyError` and leaves
the failing step without effect. -/
theorem load_res_missing_type_keyerror_witness :
    (∃ G2 s, load_res_to_networkx [("g", .dict [("bts:x", .list [.str "v1"])])]
      geneA_G0 ["bts:x"] [("g", "geneA")] ["disease_id"] =
        (G2, some (.keyError s))) ∧
    (∀ G3, load_value [("g", "geneA")] ["disease_id"] "g" "bts:x"
      [("bts:x", .list [.str "v1"])] G3 (.str "v1") =
        (G3, some (.keyError "@type"))) := by
  have h := load_res_missing_type_keyerror geneA_G0 geneA_G0 ["bts:x"]
    [("g", "geneA")] ["disease_id"] [] [] "g" "bts:x"
    [("bts:x", .list [.str "v1"])] (.list [.str "v1"]) (.str "v1") [.str "v1"]
    (by simp) rfl rfl (by simp) rfl rfl
    (by
      intro ab hab hacc2
      rw [List.mem_singleton] at hab
      subst hab
      exact ⟨[.str "v1"], rfl, by
        intro v hv
        rw [List.mem_singleton] at hv
        subst hv
        trivial⟩)
    rfl
  exact ⟨h.1, h.2.2⟩

/-!
## Bind and `mapME` tools for the path extractor
-/

theorem exbind_ok {α β : Type} {x : Except PyErr α} {f : α → Except PyErr β} {b : β}
    (h : x >>= f = .ok b) : ∃ a, x = .ok a ∧ f a = .ok b := by
  cases x with
  | error e =>
    rw [show ((Except.error e : Except PyErr α) >>= f) = Except.error e from rfl] at h
    exact absurd h (by simp)
  | ok a =>
    rw [show ((Except.ok a : Except PyErr α) >>= f) = f a from rfl] at h
    exact ⟨a, rfl, h⟩

theorem errBind {α β : Type} (e : PyErr) (f : α → Except PyErr β) :
    ((Except.error e : Except PyErr α) >>= f) = Except.error e := rfl

theorem okBind {α β : Type} (a : α) (f : α → Except PyErr β) :
    ((Except.ok a : Except PyErr α) >>= f) = f a := rfl

/-- The computation raised. -/
theorem isErr_bind {α β : Type} (x : Except PyErr α) (f : α → Except PyErr β)
    (h : IsErr x) : IsErr (x >>= f) := by
  rcases h with ⟨e, he⟩
  exact ⟨e, by rw [he, errBind]⟩

theorem mapME_cons_ok {α β : Type} {f : α → Except PyErr β} {x : α} {xs : List α}
    {ys : List β} (h : mapME f (x :: xs) = .ok ys) :
    ∃ y ys2, f x = .ok y ∧ mapME f xs = .ok ys2 ∧ ys = y :: ys2 := by
  rw [mapME] at h
  cases hfx : f x with
  | error e => rw [hfx] at h; exact absurd h (by simp)
  | ok y =>
    rw [hfx] at h
    cases hrest : mapME f xs with
    | error e => rw [hrest] at h; exact absurd h (by simp)
    | ok ys2 =>
      rw [hrest] at h
      simp only [Except.ok.injEq] at h
      exact ⟨y, ys2, rfl, rfl, h.symm⟩

theorem mapME_error_of_mem {α β : Type} (f : α → Except PyErr β) (xs : List α)
    (x : α) (hx : x ∈ xs) (he : IsErr (f x)) : IsErr (mapME f xs) := by
  induction xs with
  | nil => simp at hx
  | cons y rest ih =>
    rw [mapME]
    cases hfy : f y with
    | error e => exact ⟨e, rfl⟩
    | ok v =>
      rcases List.mem_cons.mp hx with hEq | hxt
      · subst hEq
        rcases he with ⟨e, hee⟩
        rw [hfy] at hee
        exact absurd hee (by simp)
      · rcases ih hxt with ⟨e, hee⟩
        rw [hee]
        exact ⟨e, rfl⟩

theorem nodeAttrsE_ok {G : MultiDiGraph} {k : String} {a : Attrs}
    (h : nodeAttrsE G k = .ok a) : G.findNode k = some a := by
  unfold nodeAttrsE at h
  cases hf : G.findNode k with
  | none => rw [hf] at h; exact absurd h (by simp)
  | some a2 =>
    rw [hf] at h
    simp only [Except.ok.injEq] at h
    rw [h]

theorem hasNode_of_nodeAttrsE_ok {G : MultiDiGraph} {k : String} {a : Attrs}
    (h : nodeAttrsE G k = .ok a) : G.hasNode k = true := by
  simp [MultiDiGraph.hasNode, nodeAttrsE_ok h]

theorem adjE_ok {G : MultiDiGraph} {u v : String} {es : List Attrs}
    (h : G.adjE u v = .ok es) :
    G.hasNode u = true ∧ es = G.edgesBetween u v ∧ G.edgesBetween u v ≠ [] := by
  unfold MultiDiGraph.adjE at h
  by_cases hn : G.hasNode u = true
  · rw [if_pos hn] at h
    cases hEB : G.edgesBetween u v with
    | nil => rw [hEB] at h; exact absurd h (by simp)
    | cons e rest =>
      rw [hEB] at h
      simp only [Except.ok.injEq] at h
      exact ⟨hn, h.symm, by simp⟩
  · rw [if_neg hn] at h
    exact absurd h (by simp)

/-- The spine of `processPath` on a 2-node path: the pure parts reduce. -/
theorem processPath_two (G : MultiDiGraph) (a b : String) :
    processPath G [a, b] =
      (nodeAttrsE G b >>= fun lastA =>
       attrGetE lastA "type" >>= fun lastTy =>
       G.adjE a b >>= fun edges =>
       mapME (row2M G a b
         (get_primary_id_from_equivalent_ids
           ((alookup lastA "equivalent_ids").getD .none) lastTy)
         (get_name_from_equivalent_ids
           ((alookup lastA "equivalent_ids").getD .none) .none)) edges) := rfl

/-- The spine of `processPath` on a 3-node path. -/
theorem processPath_three (G : MultiDiGraph) (a b c : String) :
    processPath G [a, b, c] =
      (nodeAttrsE G c >>= fun lastA =>
       attrGetE lastA "type" >>= fun lastTy =>
       nodeAttrsE G b >>= fun a1 =>
       attrGetE a1 "type" >>= fun n1ty =>
       G.adjE a b >>= fun start_edges =>
       G.adjE b c >>= fun end_edges =>
       mapME (row3M G a b c a1
         (get_primary_id_from_equivalent_ids
           ((alookup a1 "equivalent_ids").getD .none) n1ty)
         (get_name_from_equivalent_ids
           ((alookup a1 "equivalent_ids").getD .none) .none)
         (get_primary_id_from_equivalent_ids
           ((alookup lastA "equivalent_ids").getD .none) lastTy)
         (get_name_from_equivalent_ids
           ((alookup lastA "equivalent_ids").getD .none) .none))
         (listProd start_edges end_edges)) := rfl

theorem row3M_fields {G : MultiDiGraph} {p0 p1 p2 : String} {a1 : Attrs}
    {ni nn oi on2 : PyVal} {k v y : Attrs} {lk lv : String}
    (hk : alookup k "label" = some (.str lk)) (hv : alookup v "label" = some (.str lv))
    (h : row3M G p0 p1 p2 a1 ni nn oi on2 (k, v) = .ok y) :
    alookup y "pred1" = some (.str (lk.drop 4)) ∧
    alookup y "pred2" = some (.str (lv.drop 4)) ∧
    alookup y "pred1_source" = (retrieve_prop_from_edge (.dict k) "source").toOption ∧
    alookup y "pred1_api" = (retrieve_prop_from_edge (.dict k) "api").toOption ∧
    alookup y "pred1_pubmed" = (retrieve_prop_from_edge (.dict k) "pubmed").toOption ∧
    alookup y "pred2_source" = (retrieve_prop_from_edge (.dict v) "source").toOption ∧
    alookup y "pred2_api" = (retrieve_prop_from_edge (.dict v) "api").toOption ∧
    alookup y "pred2_pubmed" = (retrieve_prop_from_edge (.dict v) "pubmed").toOption := by
  unfold row3M at h
  obtain ⟨inA, h1, h⟩ := exbind_ok h
  obtain ⟨input_ty, h2, h⟩ := exbind_ok h
  obtain ⟨lbl1, h3, h⟩ := exbind_ok h
  obtain ⟨lbl1s, h4, h⟩ := exbind_ok h
  obtain ⟨p1src, h5, h⟩ := exbind_ok h
  obtain ⟨p1api, h6, h⟩ := exbind_ok h
  obtain ⟨p1pm, h7, h⟩ := exbind_ok h
  obtain ⟨n1ty, h8, h⟩ := exbind_ok h
  obtain ⟨lbl2, h9, h⟩ := exbind_ok h
  obtain ⟨lbl2s, h10, h⟩ := exbind_ok h
  obtain ⟨p2src, h11, h⟩ := exbind_ok h
  obtain ⟨p2api, h12, h⟩ := exbind_ok h
  obtain ⟨p2pm, h13, h⟩ := exbind_ok h
  obtain ⟨outA, h14, h⟩ := exbind_ok h
  obtain ⟨outTy, h15, h⟩ := exbind_ok h
  simp only [Except.ok.injEq] at h
  subst h
  have hlbl1 : lbl1 = .str lk := by
    have : attrGetE k "label" = .ok (.str lk) := by simp [attrGetE, hk]
    rw [this] at h3
    simpa using h3.symm
  have hlbl2 : lbl2 = .str lv := by
    have : attrGetE v "label" = .ok (.str lv) := by simp [attrGetE, hv]
    rw [this] at h9
    simpa using h9.symm
  subst hlbl1
  subst hlbl2
  have hs1 : lbl1s = .str (lk.drop 4) := by simpa [slice4] using h4.symm
  have hs2 : lbl2s = .str (lv.drop 4) := by simpa [slice4] using h10.symm
  subst hs1
  subst hs2
  rw [h5, h6, h7, h11, h12, h13]
  refine ⟨?_, ?_, ?_, ?_, ?_, ?_, ?_, ?_⟩ <;> simp [alookup, Except.toOption]

/-- C2: for a 3-node path whose first hop has exactly the two parallel edges
`e1, e2` (with string labels) and whose second hop has exactly the three
parallel edges `f1, f2, f3`, a successful extraction emits exactly six rows,
one per pair of the cartesian product in `itertools.product` order, each row
carrying that pair's stripped predicate labels and that pair's per-hop
provenance fields (as produced by `retrieve_prop_from_edge`). -/
theorem connect_df_parallel_edges_cartesian
    (G : MultiDiGraph) (a b c : String) (e1 e2 f1 f2 f3 : Attrs)
    (l1 l2 m1 m2 m3 : String) (rows : List Attrs)
    (hab : G.edgesBetween a b = [e1, e2])
    (hbc : G.edgesBetween b c = [f1, f2, f3])
    (hl1 : alookup e1 "label" = some (.str l1))
    (hl2 : alookup e2 "label" = some (.str l2))
    (hm1 : alookup f1 "label" = some (.str m1))
    (hm2 : alookup f2 "label" = some (.str m2))
    (hm3 : alookup f3 "label" = some (.str m3))
    (h : connect_networkx_to_pandas_df G [[a, b, c]] = .ok rows) :
    rows.length = 6 ∧
    rows.map (fun r => (alookup r "pred1", alookup r "pred2")) =
      [(some (.str (l1.drop 4)), some (.str (m1.drop 4))),
       (some (.str (l1.drop 4)), some (.str (m2.drop 4))),
       (some (.str (l1.drop 4)), some (.str (m3.drop 4))),
       (some (.str (l2.drop 4)), some (.str (m1.drop 4))),
       (some (.str (l2.drop 4)), some (.str (m2.drop 4))),
       (some (.str (l2.drop 4)), some (.str (m3.drop 4)))] ∧
    rows.map (fun r =>
      (alookup r "pred1_source", alookup r "pred1_api", alookup r "pred1_pubmed")) =
      [e1, e1, e1, e2, e2, e2].map (fun k =>
        ((retrieve_prop_from_edge (.dict k) "source").toOption,
         (retrieve_prop_from_edge (.dict k) "api").toOption,
         (retrieve_prop_from_edge (.dict k) "pubmed").toOption)) ∧
    rows.map (fun r =>
      (alookup r "pred2_source", alookup r "pred2_api", alookup r "pred2_pubmed")) =
      [f1, f2, f3, f1, f2, f3].map (fun v =>
        ((retrieve_prop_from_edge (.dict v) "source").toOption,
         (retrieve_prop_from_edge (.dict v) "api").toOption,
         (retrieve_prop_from_edge (.dict v) "pubmed").toOption)) := by
  unfold connect_networkx_to_pandas_df at h
  obtain ⟨rowss, hrs, h⟩ := exbind_ok h
  obtain ⟨r1, rest, hpp, hrestm, hrowss⟩ := mapME_cons_ok hrs
  have hrest : rest = [] := by simpa [mapME] using hrestm.symm
  subst hrest
  subst hrowss
  simp only [Except.ok.injEq] at h
  have hrows : rows = r1 := by
    rw [← h]
    simp [joinLists]
  subst hrows
  rw [processPath_three] at hpp
  obtain ⟨lastA, hA, hpp⟩ := exbind_ok hpp
  obtain ⟨lastTy, hT, hpp⟩ := exbind_ok hpp
  obtain ⟨a1, hA1, hpp⟩ := exbind_ok hpp
  obtain ⟨n1ty, hT1, hpp⟩ := exbind_ok hpp
  obtain ⟨ses, hS, hpp⟩ := exbind_ok hpp
  obtain ⟨ees, hE, hpp⟩ := exbind_ok hpp
  have hses : ses = [e1, e2] := by
    rcases adjE_ok hS with ⟨-, hEq, -⟩
    rw [hEq, hab]
  have hees : ees = [f1, f2, f3] := by
    rcases adjE_ok hE with ⟨-, hEq, -⟩
    rw [hEq, hbc]
  subst hses
  subst hees
  have hlp : listProd [e1, e2] [f1, f2, f3] =
      [(e1, f1), (e1, f2), (e1, f3), (e2, f1), (e2, f2), (e2, f3)] := rfl
  rw [hlp] at hpp
  obtain ⟨y1, r2, hy1, hpp, hr1⟩ := mapME_cons_ok hpp
  obtain ⟨y2, r3, hy2, hpp, hr2⟩ := mapME_cons_ok hpp
  obtain ⟨y3, r4, hy3, hpp, hr3⟩ := mapME_cons_ok hpp
  obtain ⟨y4, r5, hy4, hpp, hr4⟩ := mapME_cons_ok hpp
  obtain ⟨y5, r6, hy5, hpp, hr5⟩ := mapME_cons_ok hpp
  obtain ⟨y6, r7, hy6, hpp, hr6⟩ := mapME_cons_ok hpp
  have hr7 : r7 = [] := by simpa [mapME] using hpp.symm
  subst hr7
  subst hr6
  subst hr5
  subst hr4
  subst hr3
  subst hr2
  subst hr1
  obtain ⟨p11, p12, p13, p14, p15, p16, p17, p18⟩ := row3M_fields hl1 hm1 hy1
  obtain ⟨p21, p22, p23, p24, p25, p26, p27, p28⟩ := row3M_fields hl1 hm2 hy2
  obtain ⟨p31, p32, p33, p34, p35, p36, p37, p38⟩ := row3M_fields hl1 hm3 hy3
  obtain ⟨p41, p42, p43, p44, p45, p46, p47, p48⟩ := row3M_fields hl2 hm1 hy4
  obtain ⟨p51, p52, p53, p54, p55, p56, p57, p58⟩ := row3M_fields hl2 hm2 hy5
  obtain ⟨p61, p62, p63, p64, p65, p66, p67, p68⟩ := row3M_fields hl2 hm3 hy6
  refine ⟨rfl, ?_, ?_, ?_⟩
  · simp only [List.map]
    rw [p11, p12, p21, p22, p31, p32, p41, p42, p51, p52, p61, p62]
  · simp only [List.map]
    rw [p13, p14, p15, p23, p24, p25, p33, p34, p35, p43, p44, p45,
        p53, p54, p55, p63, p64, p65]
  · simp only [List.map]
    rw [p16, p17, p18, p26, p27, p28, p36, p37, p38, p46, p47, p48,
        p56, p57, p58, p66, p67, p68]

/-- C2 witness: the concrete 2-by-3 parallel-edge graph yields exactly six
rows. -/
theorem connect_df_parallel_edges_cartesian_witness :
    ((connect_networkx_to_pandas_df cart_graph [["a", "b", "c"]]).toOption.getD
      []).length = 6 :=
  (connect_df_parallel_edges_cartesian cart_graph "a" "b" "c"
    cart_e1 cart_e2 cart_f1 cart_f2 cart_f3
    "bts:p1" "bts:p2" "bts:q1" "bts:q2" "bts:q3"
    ((connect_networkx_to_pandas_df cart_graph [["a", "b", "c"]]).toOption.getD [])
    rfl rfl rfl rfl rfl rfl rfl rfl).1

/-!
## C6 (amended): missing topology on 2- and 3-node paths raises
-/

theorem isErr_bind_of_all {α β : Type} (x : Except PyErr α) (f : α → Except PyErr β)
    (h : ∀ a, x = .ok a → IsErr (f a)) : IsErr (x >>= f) := by
  cases x with
  | error e => exact ⟨e, by rw [errBind]⟩
  | ok a =>
    rw [okBind]
    exact h a rfl

/-- C6 (amended): if the path list contains a path of length 2 or 3 that
mentions a node key absent from the graph, or two consecutive nodes with no
connecting edge, the extraction raises instead of producing rows.  (Paths of
other lengths fall into the fallback branch, which only inspects
`_path[-1]`, `_path[0]` and `_path[1]` — see the counterexample.) -/
theorem connect_df_missing_topology_errors (G : MultiDiGraph)
    (paths : List (List String))
    (h : ∃ p ∈ paths, (p.length = 2 ∨ p.length = 3) ∧
      ((∃ x ∈ p, G.hasNode x = false) ∨
       (∃ q ∈ p.zip p.tail, G.edgesBetween q.1 q.2 = []))) :
    ∃ e, connect_networkx_to_pandas_df G paths = .error e := by
  rcases h with ⟨p, hp, hlen, hbad⟩
  have herr : IsErr (processPath G p) := by
    rcases hlen with h2 | h3
    · cases p with
      | nil => simp at h2
      | cons a p =>
        cases p with
        | nil => simp at h2
        | cons b p =>
          cases p with
          | cons x p => simp at h2
          | nil =>
            rw [processPath_two]
            apply isErr_bind_of_all
            intro lastA hA
            apply isErr_bind_of_all
            intro lastTy hT
            apply isErr_bind_of_all
            intro edges hS
            exfalso
            rcases adjE_ok hS with ⟨hna, -, hne⟩
            have hnb := hasNode_of_nodeAttrsE_ok hA
            rcases hbad with ⟨x, hx, hmiss⟩ | ⟨q, hq, hemp⟩
            · rcases List.mem_cons.mp hx with rfl | hx2
              · rw [hna] at hmiss
                simp at hmiss
              · rw [List.mem_singleton] at hx2
                subst hx2
                rw [hnb] at hmiss
                simp at hmiss
            · have hq2 : q = (a, b) := by simpa using hq
              subst hq2
              exact hne hemp
    · cases p with
      | nil => simp at h3
      | cons a p =>
        cases p with
        | nil => simp at h3
        | cons b p =>
          cases p with
          | nil => simp at h3
          | cons c p =>
            cases p with
            | cons x p => simp at h3
            | nil =>
              rw [processPath_three]
              apply isErr_bind_of_all
              intro lastA hA
              apply isErr_bind_of_all
              intro lastTy hT
              apply isErr_bind_of_all
              intro a1 hA1
              apply isErr_bind_of_all
              intro n1ty hT1
              apply isErr_bind_of_all
              intro ses hS
              apply isErr_bind_of_all
              intro ees hE
              exfalso
              rcases adjE_ok hS with ⟨hna, -, hneab⟩
              rcases adjE_ok hE with ⟨hnb2, -, hnebc⟩
              have hnc := hasNode_of_nodeAttrsE_ok hA
              have hnb := hasNode_of_nodeAttrsE_ok hA1
              rcases hbad with ⟨x, hx, hmiss⟩ | ⟨q, hq, hemp⟩
              · rcases List.mem_cons.mp hx with rfl | hx2
                · rw [hna] at hmiss
                  simp at hmiss
                · rcases List.mem_cons.mp hx2 with rfl | hx3
                  · rw [hnb] at hmiss
                    simp at hmiss
                  · rw [List.mem_singleton] at hx3
                    subst hx3
                    rw [hnc] at hmiss
                    simp at hmiss
              · have hq2 : q = (a, b) ∨ q = (b, c) := by
                  simpa using hq
                rcases hq2 with rfl | rfl
                · exact hneab hemp
                · exact hnebc hemp
  have hm : IsErr (mapME (processPath G) paths) :=
    mapME_error_of_mem (processPath G) paths p hp herr
  rcases hm with ⟨e, he⟩
  refine ⟨e, ?_⟩
  unfold connect_networkx_to_pandas_df
  rw [he, errBind]

/-- C6 witness: the 2-node path `[a, X]` with `X` missing from the graph
raises. -/
theorem connect_df_missing_topology_errors_witness :
    ∃ e, connect_networkx_to_pandas_df path_graph [["a", "X"]] = .error e :=
  connect_df_missing_topology_errors path_graph [["a", "X"]]
    ⟨["a", "X"], by simp, Or.inl rfl, Or.inl ⟨"X", by simp, rfl⟩⟩

/-!
## C7 (amended): prefix stripping across the two input shapes
-/

/-- C7 (amended): for every label, both input shapes emit records over the
same column set; the 3-node branch of `connect_networkx_to_pandas_df` and
`connect_networkx_to_pandas_df_new` strip the fixed-length 4-character
namespace off the label in every `pred{i}` column, while the `pred1` column
of a length-2 node-path carries the raw, unstripped label. -/
theorem pred_namespace_stripping (l1 l2 l : String) :
    connect_networkx_to_pandas_df (strip_graph3 l1 l2) [["a", "b", "c"]] =
      .ok [[("input", .str "a"), ("input_type", .str "Gene"),
            ("pred1", .str (l1.drop 4)),
            ("pred1_source", .none), ("pred1_api", .none), ("pred1_pubmed", .none),
            ("node1_id", .none), ("node1_name", .none),
            ("node1_type", .str "ChemicalSubstance"),
            ("pred2", .str (l2.drop 4)),
            ("pred2_source", .none), ("pred2_api", .none), ("pred2_pubmed", .none),
            ("output_id", .none), ("output_name", .none),
            ("output_type", .str "Disease")]] ∧
    connect_networkx_to_pandas_df (strip_graph2 l) [["a", "b"]] =
      .ok [[("input", .str "a"), ("input_type", .str "Gene"),
            ("pred1", .str l),
            ("pred1_source", .none), ("pred1_api", .none), ("pred1_pubmed", .none),
            ("output_id", .none), ("output_name", .none),
            ("output_type", .str "Disease")]] ∧
    connect_networkx_to_pandas_df_new (strip_paths_new l) [.str "Gene"] =
      .ok [[("input", .str "i1"), ("input_type", .str "Gene"),
            ("pred1", .str (l.drop 4)),
            ("pred1_source", .none), ("pred1_api", .none), ("pred1_pubmed", .none),
            ("output_type", .str "Disease"), ("output_name", .str "o1"),
            ("output_id", .str "o1")]] :=
  ⟨rfl, rfl, by with_unfolding_all rfl⟩

/-!
## C3 (amended): the provenance accessor
-/

theorem allStrs_map_str (ss : List String) : allStrs (ss.map PyVal.str) = some ss := by
  induction ss with
  | nil => rfl
  | cons s rest ih => simp [allStrs, ih]

theorem allStrs_map_stringify (xs : List PyVal) :
    allStrs (xs.map stringifyItem) = some (xs.map PyVal.pyStr) := by
  induction xs with
  | nil => rfl
  | cons x rest ih =>
    cases x <;> simp [stringifyItem, allStrs, ih, PyVal.pyStr]

theorem intercalate_singleton (sep s : String) : String.intercalate sep [s] = s := rfl

theorem str_truthy_of_ne (s : String) (h : s ≠ "") : (PyVal.str s).truthy = true := by
  have hf : s.isEmpty = false := by
    by_contra hc
    simp only [Bool.not_eq_false] at hc
    exact h ((String.isEmpty_iff s).mp hc)
  simp [PyVal.truthy, hf]

/-- C3 (amended): reading through `edge_info['info']`, the accessor returns
the comma-join when the field holds a non-empty list of strings, the value
itself when it holds a non-empty scalar string, and `None` when the field is
absent; the same for `source`, and for `pubmed`, whose non-string list
items are stringified before joining.  (A present but falsy value — e.g. the
empty string — also yields `None`; see the counterexample.) -/
theorem retrieve_prop_from_edge_spec (edge_info : PyVal) (D : List (String × PyVal))
    (hinfo : pySub edge_info "info" = .ok (.dict D)) :
    ((∀ ss : List String, ss ≠ [] → alookup D "$api" = some (.list (ss.map PyVal.str)) →
        retrieve_prop_from_edge edge_info "api" =
          .ok (.str (String.intercalate "," ss))) ∧
     (∀ s : String, s ≠ "" → alookup D "$api" = some (.str s) →
        retrieve_prop_from_edge edge_info "api" = .ok (.str s)) ∧
     (alookup D "$api" = Option.none →
        retrieve_prop_from_edge edge_info "api" = .ok .none)) ∧
    ((∀ ss : List String, ss ≠ [] → alookup D "$source" = some (.list (ss.map PyVal.str)) →
        retrieve_prop_from_edge edge_info "source" =
          .ok (.str (String.intercalate "," ss))) ∧
     (∀ s : String, s ≠ "" → alookup D "$source" = some (.str s) →
        retrieve_prop_from_edge edge_info "source" = .ok (.str s)) ∧
     (alookup D "$source" = Option.none →
        retrieve_prop_from_edge edge_info "source" = .ok .none)) ∧
    ((∀ xs : List PyVal, xs ≠ [] → alookup D "bts:pubmed" = some (.list xs) →
        retrieve_prop_from_edge edge_info "pubmed" =
          .ok (.str (String.intercalate "," (xs.map PyVal.pyStr)))) ∧
     (∀ s : String, s ≠ "" → alookup D "bts:pubmed" = some (.str s) →
        retrieve_prop_from_edge edge_info "pubmed" = .ok (.str s)) ∧
     (alookup D "bts:pubmed" = Option.none →
        retrieve_prop_from_edge edge_info "pubmed" = .ok .none)) := by
  refine ⟨⟨?_, ?_, ?_⟩, ⟨?_, ?_, ?_⟩, ⟨?_, ?_, ?_⟩⟩
  · intro ss hne hl
    have htr : (PyVal.list (ss.map PyVal.str)).truthy = true := by
      simp [PyVal.truthy, hne]
    simp [retrieve_prop_from_edge, hinfo, pyGet, hl, htr, joinComma, allStrs_map_str]
  · intro s hne hl
    simp [retrieve_prop_from_edge, hinfo, pyGet, hl, str_truthy_of_ne s hne,
      joinComma, allStrs, intercalate_singleton]
  · intro hl
    simp [retrieve_prop_from_edge, hinfo, pyGet, hl, PyVal.truthy]
  · intro ss hne hl
    have htr : (PyVal.list (ss.map PyVal.str)).truthy = true := by
      simp [PyVal.truthy, hne]
    simp [retrieve_prop_from_edge, hinfo, pyGet, hl, htr, joinComma, allStrs_map_str]
  · intro s hne hl
    simp [retrieve_prop_from_edge, hinfo, pyGet, hl, str_truthy_of_ne s hne,
      joinComma, allStrs, intercalate_singleton]
  · intro hl
    simp [retrieve_prop_from_edge, hinfo, pyGet, hl, PyVal.truthy]
  · intro xs hne hl
    have htr : (PyVal.list xs).truthy = true := by
      simp [PyVal.truthy, hne]
    simp [retrieve_prop_from_edge, hinfo, pyGet, hl, htr, joinComma,
      allStrs_map_stringify]
  · intro s hne hl
    simp [retrieve_prop_from_edge, hinfo, pyGet, hl, str_truthy_of_ne s hne,
      joinComma, allStrs, intercalate_singleton]
  · intro hl
    simp [retrieve_prop_from_edge, hinfo, pyGet, hl, PyVal.truthy]

/-- C3 witness: `$api = ["api1", "api2"]` joins to `"api1,api2"`, a scalar
`"api1"` is returned as is, and a missing `$api` yields `None`. -/
theorem retrieve_prop_from_edge_spec_witness :
    retrieve_prop_from_edge
      (.dict [("info", .dict [("$api", .list [.str "api1", .str "api2"])])]) "api" =
      .ok (.str "api1,api2") ∧
    retrieve_prop_from_edge (.dict [("info", .dict [("$api", .str "api1")])]) "api" =
      .ok (.str "api1") ∧
    retrieve_prop_from_edge (.dict [("info", .dict [])]) "api" = .ok .none := by
  refine ⟨?_, ?_, ?_⟩
  · have h := ((retrieve_prop_from_edge_spec
      (.dict [("info", .dict [("$api", .list [.str "api1", .str "api2"])])])
      [("$api", .list [.str "api1", .str "api2"])] rfl).1).1
      ["api1", "api2"] (by simp) rfl
    simpa using h
  · exact ((retrieve_prop_from_edge_spec
      (.dict [("info", .dict [("$api", .str "api1")])])
      [("$api", .str "api1")] rfl).1).2.1 "api1" (by simp) rfl
  · exact ((retrieve_prop_from_edge_spec
      (.dict [("info", .dict [])]) [] rfl).1).2.2 rfl

/-!
## C5 (amended): resolver request grouping
-/

/-- Well-formedness of one node attribute dict for the grouping pipeline:
attributed nodes carry a `level`, and level-2 nodes carry comma-free string
`type` and `identifier` attributes. -/
theorem splitCharAux_no_sep (cs : List Char) :
    ∀ cur, (∀ c ∈ cs, c ≠ ',') → splitCharAux ',' cur cs = [cur.reverse ++ cs] := by
  induction cs with
  | nil => intro cur _; simp [splitCharAux]
  | cons c rest ih =>
    intro cur h
    have hc : c ≠ ',' := h c (by simp)
    rw [splitCharAux, if_neg hc, ih (c :: cur) (fun c2 hm => h c2 (by simp [hm]))]
    simp

theorem splitCharAux_through_sep (cs : List Char) :
    ∀ cur rest, (∀ c ∈ cs, c ≠ ',') →
      splitCharAux ',' cur (cs ++ ',' :: rest) =
        (cur.reverse ++ cs) :: splitCharAux ',' [] rest := by
  induction cs with
  | nil => intro cur rest _; simp [splitCharAux]
  | cons c cs2 ih =>
    intro cur rest h
    have hc : c ≠ ',' := h c (by simp)
    rw [List.cons_append, splitCharAux, if_neg hc,
      ih (c :: cur) rest (fun c2 hm => h c2 (by simp [hm]))]
    simp

theorem commaFree_chars {s : String} (h : commaFree s = true) :
    ∀ c ∈ s.data, c ≠ ',' := by
  intro c hc
  have := List.all_eq_true.mp h c hc
  simpa using this

theorem pySplitChar_comma_concat (ts is2 : String)
    (h1 : commaFree ts = true) (h2 : commaFree is2 = true) :
    pySplitChar ',' (ts ++ "," ++ is2) = [ts, is2] := by
  unfold pySplitChar
  have hdata : (ts ++ "," ++ is2).data = ts.data ++ ',' :: is2.data := by
    rw [String.data_append, String.data_append, List.append_assoc]
    rfl
  rw [hdata]
  rw [splitCharAux_through_sep ts.data [] is2.data (commaFree_chars h1)]
  rw [splitCharAux_no_sep is2.data [] (commaFree_chars h2)]
  simp

theorem level2_filter_ok (ns : List (String × Attrs))
    (hwf : ∀ xy ∈ ns, level2WF xy.2 = true) :
    level2_filter ns = .ok ((ns.filter (fun xy => isLevel2Attrs xy.2)).map Prod.fst) := by
  induction ns with
  | nil => rfl
  | cons xy rest ih =>
    obtain ⟨x, y⟩ := xy
    have hy : level2WF y = true := hwf (x, y) (by simp)
    have ihr := ih (fun xy2 hm => hwf xy2 (by simp [hm]))
    by_cases hemp : y.isEmpty = true
    · have hl2 : isLevel2Attrs y = false := by simp [isLevel2Attrs, hemp]
      simp [level2_filter, hemp, ihr, List.filter_cons, hl2]
    · have hemp2 : y.isEmpty = false := by simpa using hemp
      cases hlv : alookup y "level" with
      | none =>
        exfalso
        rw [level2WF, if_neg (by simp [hemp2]), hlv] at hy
        exact absurd hy (by simp)
      | some lv =>
        by_cases h2 : pyEqTwo lv = true
        · have hl2 : isLevel2Attrs y = true := by
            simp [isLevel2Attrs, hemp2, hlv, h2]
          simp [level2_filter, hemp2, hlv, h2, ihr, List.filter_cons, hl2]
        · have h2b : pyEqTwo lv = false := by simpa using h2
          have hl2 : isLevel2Attrs y = false := by
            simp [isLevel2Attrs, hemp2, hlv, h2b]
          simp [level2_filter, hemp2, hlv, h2b, ihr, List.filter_cons, hl2]

theorem findNodeL_of_mem_nodup (ns : List (String × Attrs)) (x : String) (y : Attrs)
    (hnd : (ns.map Prod.fst).Nodup) (hm : (x, y) ∈ ns) : findNodeL ns x = some y := by
  induction ns with
  | nil => simp at hm
  | cons kv rest ih =>
    rw [List.map_cons] at hnd
    have hk_not : kv.1 ∉ rest.map Prod.fst := (List.nodup_cons.mp hnd).1
    have hndr : (rest.map Prod.fst).Nodup := (List.nodup_cons.mp hnd).2
    rcases List.mem_cons.mp hm with hEq | hmt
    · have : kv = (x, y) := hEq.symm
      subst this
      simp [findNodeL]
    · obtain ⟨k0, y0⟩ := kv
      have hne : k0 ≠ x := by
        intro hc
        subst hc
        exact hk_not (by simpa using List.mem_map_of_mem Prod.fst hmt)
      rw [findNodeL, if_neg hne]
      exact ih hndr hmt

theorem addToGroup_member (gs : List (String × List String)) (k x : String) :
    ∀ g2 ∈ addToGroup gs k x, ∀ y ∈ g2.2, (∃ g ∈ gs, y ∈ g.2) ∨ y = x := by
  induction gs with
  | nil =>
    intro g2 hg2 y hy
    simp [addToGroup] at hg2
    subst hg2
    simp at hy
    exact Or.inr hy
  | cons g gs2 ih =>
    intro g2 hg2 y hy
    obtain ⟨k2, xs⟩ := g
    by_cases hk : k2 = k
    · rw [addToGroup, if_pos hk] at hg2
      rcases List.mem_cons.mp hg2 with hEq | hmem
      · subst hEq
        simp only at hy
        rcases List.mem_append.mp hy with h | h
        · exact Or.inl ⟨(k2, xs), by simp, h⟩
        · simp at h
          exact Or.inr h
      · exact Or.inl ⟨g2, by simp [hmem], hy⟩
    · rw [addToGroup, if_neg hk] at hg2
      rcases List.mem_cons.mp hg2 with hEq | hmem
      · subst hEq
        exact Or.inl ⟨(k2, xs), by simp, hy⟩
      · rcases ih g2 hmem y hy with ⟨g3, hg3, hy3⟩ | hEq2
        · exact Or.inl ⟨g3, by simp [hg3], hy3⟩
        · exact Or.inr hEq2

theorem addToGroup_keys (gs : List (String × List String)) (k x : String) :
    (addToGroup gs k x).map Prod.fst =
      (if k ∈ gs.map Prod.fst then gs.map Prod.fst else gs.map Prod.fst ++ [k]) := by
  induction gs with
  | nil => simp [addToGroup]
  | cons g gs2 ih =>
    obtain ⟨k2, xs⟩ := g
    by_cases hk : k2 = k
    · subst hk
      rw [addToGroup, if_pos rfl]
      simp
    · rw [addToGroup, if_neg hk]
      simp only [List.map_cons, ih]
      by_cases hmem : k ∈ gs2.map Prod.fst
      · rw [if_pos hmem, if_pos (by simp [hmem])]
      · rw [if_neg hmem, if_neg (by simp [hmem, Ne.symm hk])]
        simp

theorem addToGroup_consistent (tid : String → Except PyErr String)
    (gs : List (String × List String)) (k x : String)
    (hgs : ∀ g ∈ gs, g.2 ≠ [] ∧ ∀ y ∈ g.2, tid y = .ok g.1)
    (hx : tid x = .ok k) :
    ∀ g ∈ addToGroup gs k x, g.2 ≠ [] ∧ ∀ y ∈ g.2, tid y = .ok g.1 := by
  induction gs with
  | nil =>
    intro g hg
    simp [addToGroup] at hg
    subst hg
    refine ⟨by simp, ?_⟩
    intro y hy
    simp at hy
    subst hy
    exact hx
  | cons g0 gs2 ih =>
    intro g hg
    obtain ⟨k2, xs⟩ := g0
    by_cases hk : k2 = k
    · rw [addToGroup, if_pos hk] at hg
      rcases List.mem_cons.mp hg with hEq | hmem
      · subst hEq
        refine ⟨by simp, ?_⟩
        intro y hy
        rcases List.mem_append.mp hy with h | h
        · exact (hgs (k2, xs) (by simp)).2 y h
        · simp at h
          subst h
          rw [hx, hk]
      · exact hgs g (by simp [hmem])
    · rw [addToGroup, if_neg hk] at hg
      rcases List.mem_cons.mp hg with hEq | hmem
      · subst hEq
        exact hgs (k2, xs) (by simp)
      · exact ih (fun g2 hg2 => hgs g2 (by simp [hg2])) g hmem

theorem addToGroup_count_self (gs : List (String × List String)) (k x : String)
    (h : ∀ g ∈ gs, x ∉ g.2) :
    ((addToGroup gs k x).filter (fun g => decide (x ∈ g.2))).length = 1 ∧
    (gs.filter (fun g => decide (x ∈ g.2))).length = 0 := by
  induction gs with
  | nil => simp [addToGroup]
  | cons g0 gs2 ih =>
    obtain ⟨k2, xs⟩ := g0
    have hx0 : x ∉ xs := by
      have := h (k2, xs) (by simp)
      simpa using this
    have ihr := ih (fun g2 hg2 => h g2 (by simp [hg2]))
    by_cases hk : k2 = k
    · rw [addToGroup, if_pos hk]
      rw [List.filter_cons, List.filter_cons]
      simp only [hx0, decide_eq_true_eq]
      have hxm : x ∈ xs ++ [x] := by simp
      rw [if_pos (by simp), if_neg (by simp [hx0])]
      constructor
      · have hrest : (gs2.filter (fun g => decide (x ∈ g.2))).length = 0 := ihr.2
        have : ∀ g2 ∈ gs2, (fun g => decide (x ∈ g.2)) g2 = false := by
          intro g2 hg2
          simpa using h g2 (by simp [hg2])
        simp only [List.length_cons]
        rw [List.filter_eq_nil_iff.mpr (by
          intro g2 hg2
          simpa using h g2 (by simp [hg2]))]
        rfl
      · rw [List.filter_eq_nil_iff.mpr (by
          intro g2 hg2
          simpa using h g2 (by simp [hg2]))]
        rfl
    · rw [addToGroup, if_neg hk]
      rw [List.filter_cons, List.filter_cons]
      rw [if_neg (by simpa using hx0), if_neg (by simpa using hx0)]
      exact ihr

theorem addToGroup_count_other (gs : List (String × List String)) (k x y : String)
    (h : y ≠ x) :
    ((addToGroup gs k x).filter (fun g => decide (y ∈ g.2))).length =
      (gs.filter (fun g => decide (y ∈ g.2))).length := by
  induction gs with
  | nil => simp [addToGroup, h]
  | cons g0 gs2 ih =>
    obtain ⟨k2, xs⟩ := g0
    by_cases hk : k2 = k
    · rw [addToGroup, if_pos hk]
      rw [List.filter_cons, List.filter_cons]
      have : (y ∈ xs ++ [x]) ↔ (y ∈ xs) := by simp [h]
      by_cases hy : y ∈ xs
      · rw [if_pos (by simp [this, hy]), if_pos (by simpa using hy)]
        simp
      · rw [if_neg (by simp [this, hy]), if_neg (by simpa using hy)]
    · rw [addToGroup, if_neg hk]
      rw [List.filter_cons, List.filter_cons]
      by_cases hy : y ∈ xs
      · rw [if_pos (by simpa using hy), if_pos (by simpa using hy)]
        simp [ih]
      · rw [if_neg (by simpa using hy), if_neg (by simpa using hy)]
        exact ih

theorem group_go_spec (G : MultiDiGraph) :
    ∀ (ids : List String) (acc : List (String × List String)),
      (∀ x ∈ ids, ∃ k, type_identifier_of G x = .ok k) →
      ids.Nodup →
      (∀ x ∈ ids, ∀ g ∈ acc, x ∉ g.2) →
      (acc.map Prod.fst).Nodup →
      (∀ g ∈ acc, g.2 ≠ [] ∧ ∀ y ∈ g.2, type_identifier_of G y = .ok g.1) →
      ∃ gs, group_go G acc ids = .ok gs ∧
        (gs.map Prod.fst).Nodup ∧
        (∀ g ∈ gs, g.2 ≠ [] ∧ ∀ y ∈ g.2, type_identifier_of G y = .ok g.1) ∧
        (∀ x, (gs.filter (fun g => decide (x ∈ g.2))).length =
          (acc.filter (fun g => decide (x ∈ g.2))).length +
            (if x ∈ ids then 1 else 0)) ∧
        (∀ g ∈ gs, ∀ y ∈ g.2, y ∈ ids ∨ ∃ g2 ∈ acc, y ∈ g2.2) := by
  intro ids
  induction ids with
  | nil =>
    intro acc _ _ _ hknd hcons
    refine ⟨acc, rfl, hknd, hcons, by simp, ?_⟩
    intro g hg y hy
    exact Or.inr ⟨g, hg, hy⟩
  | cons x0 rest ih =>
    intro acc hok hnd hdisj hknd hcons
    obtain ⟨k0, hk0⟩ := hok x0 (by simp)
    have hx0nr : x0 ∉ rest := (List.nodup_cons.mp hnd).1
    have hndr : rest.Nodup := (List.nodup_cons.mp hnd).2
    have hstep : group_go G acc (x0 :: rest) =
        group_go G (addToGroup acc k0 x0) rest := by
      simp only [group_go, hk0]
    have hdisj2 : ∀ x ∈ rest, ∀ g ∈ addToGroup acc k0 x0, x ∉ g.2 := by
      intro x hx g hg hxin
      rcases addToGroup_member acc k0 x0 g hg x hxin with ⟨g2, hg2, hx2⟩ | hEq
      · exact hdisj x (by simp [hx]) g2 hg2 hx2
      · subst hEq
        exact hx0nr hx
    have hknd2 : ((addToGroup acc k0 x0).map Prod.fst).Nodup := by
      rw [addToGroup_keys]
      by_cases hmem : k0 ∈ acc.map Prod.fst
      · rw [if_pos hmem]
        exact hknd
      · rw [if_neg hmem]
        simp [List.nodup_append, hknd, hmem]
    have hcons2 := addToGroup_consistent (type_identifier_of G) acc k0 x0 hcons hk0
    obtain ⟨gs, hgo, hk, hc, hcnt, hmem⟩ := ih (addToGroup acc k0 x0)
      (fun x hx => hok x (by simp [hx])) hndr hdisj2 hknd2 hcons2
    refine ⟨gs, by rw [hstep]; exact hgo, hk, hc, ?_, ?_⟩
    · intro x
      by_cases hxx : x = x0
      · subst hxx
        have hself := addToGroup_count_self acc k0 x (hdisj x (by simp))
        rw [hcnt x, hself.1, hself.2, if_neg hx0nr, if_pos (by simp)]
      · rw [hcnt x, addToGroup_count_other acc k0 x0 x hxx]
        by_cases hxr : x ∈ rest
        · rw [if_pos hxr, if_pos (by simp [hxr])]
        · rw [if_neg hxr, if_neg (by simp [hxx, hxr])]
    · intro g hg y hy
      rcases hmem g hg y hy with hyr | ⟨g2, hg2, hy2⟩
      · exact Or.inl (by simp [hyr])
      · rcases addToGroup_member acc k0 x0 g2 hg2 y hy2 with ⟨g3, hg3, hy3⟩ | hEq
        · exact Or.inr ⟨g3, hg3, hy3⟩
        · subst hEq
          exact Or.inl (by simp)

theorem build_idc_inputs_spec (gs : List (String × List String))
    (h : ∀ g ∈ gs, ∃ cls id2, pySplitChar ',' g.1 = [cls, id2]) :
    ∃ rs, build_idc_inputs gs = .ok rs ∧
      List.Forall₂ (fun (g : String × List String) (r : List String × String × String) =>
        r.1 = g.2 ∧ pySplitChar ',' g.1 = [r.2.2, r.2.1]) gs rs := by
  induction gs with
  | nil => exact ⟨[], rfl, List.Forall₂.nil⟩
  | cons g gs2 ih =>
    obtain ⟨cls, id2, hsplit⟩ := h g (by simp)
    obtain ⟨rs2, hb2, hf2⟩ := ih (fun g2 hg2 => h g2 (by simp [hg2]))
    refine ⟨(g.2, id2, cls) :: rs2, ?_, ?_⟩
    · obtain ⟨k, v⟩ := g
      simp only at hsplit
      simp only [build_idc_inputs, hsplit, hb2]
    · exact List.Forall₂.cons ⟨rfl, hsplit⟩ hf2

theorem forall2_mem_right {α β : Type} {R : α → β → Prop} {l1 : List α} {l2 : List β}
    (h : List.Forall₂ R l1 l2) : ∀ y ∈ l2, ∃ x ∈ l1, R x y := by
  induction h with
  | nil => intro y hy; simp at hy
  | cons hr hrest ih =>
    intro y hy
    rcases List.mem_cons.mp hy with hEq | hmem
    · subst hEq
      exact ⟨_, by simp, hr⟩
    · rcases ih y hmem with ⟨x, hx, hR⟩
      exact ⟨x, by simp [hx], hR⟩

theorem forall2_filter_length {α β : Type} {R : α → β → Prop} {l1 : List α}
    {l2 : List β} (p : β → Bool) (q : α → Bool)
    (h : List.Forall₂ R l1 l2) (hpq : ∀ x y, R x y → p y = q x) :
    (l2.filter p).length = (l1.filter q).length := by
  induction h with
  | nil => rfl
  | @cons x y l1b l2b hr hrest ih =>
    rw [List.filter_cons, List.filter_cons, hpq x y hr]
    by_cases hq : q x = true
    · rw [if_pos hq, if_pos hq]
      simp [ih]
    · rw [if_neg hq, if_neg hq]
      exact ih

theorem forall2_map_eq {α β γ : Type} {R : α → β → Prop} {l1 : List α} {l2 : List β}
    (f : β → γ) (g : α → γ) (h : List.Forall₂ R l1 l2)
    (hfg : ∀ x y, R x y → f y = g x) : l2.map f = l1.map g := by
  induction h with
  | nil => rfl
  | cons hr hrest ih =>
    simp only [List.map_cons, ih, hfg _ _ hr]

/-- C5 (amended): for a graph with well-formed node dicts whose attributed
nodes all carry a `level` and whose level-2 nodes carry comma-free string
`type` and `identifier` attributes, the request construction succeeds and
the batched requests partition the level-2 node keys exactly by the pair
(entity type, identifier kind): every level-2 key is in exactly one request,
non-level-2 keys are in none, each request's keys all carry exactly its
(type, identifier) pair, and distinct requests carry distinct pairs. -/
theorem idc_inputs_partition_by_pair (G : MultiDiGraph)
    (hnd : (G.nodes.map Prod.fst).Nodup)
    (hwf : ∀ xy ∈ G.nodes, level2WF xy.2 = true) :
    ∃ ids groups reqs,
      level2_output_ids G = .ok ids ∧
      group_output_ids G ids = .ok groups ∧
      build_idc_inputs groups = .ok reqs ∧
      (∀ x ∈ ids, (reqs.filter (fun r => decide (x ∈ r.1))).length = 1) ∧
      (∀ x : String, x ∉ ids → ∀ r ∈ reqs, x ∉ r.1) ∧
      (∀ r ∈ reqs, ∀ x ∈ r.1, ∃ y, G.findNode x = some y ∧
        alookup y "type" = some (.str r.2.2) ∧
        alookup y "identifier" = some (.str r.2.1)) ∧
      (reqs.map (fun r => (r.2.1, r.2.2))).Nodup := by
  have hfil : level2_output_ids G =
      .ok ((G.nodes.filter (fun xy => isLevel2Attrs xy.2)).map Prod.fst) :=
    level2_filter_ok G.nodes hwf
  set ids := (G.nodes.filter (fun xy => isLevel2Attrs xy.2)).map Prod.fst with hids
  have hidsnd : ids.Nodup := by
    apply List.Nodup.sublist _ hnd
    exact List.Sublist.map Prod.fst (List.filter_sublist G.nodes)
  have hdata : ∀ x ∈ ids, ∃ y ts is2, G.findNode x = some y ∧
      alookup y "type" = some (.str ts) ∧ alookup y "identifier" = some (.str is2) ∧
      commaFree ts = true ∧ commaFree is2 = true ∧
      type_identifier_of G x = .ok (ts ++ "," ++ is2) := by
    intro x hx
    rw [hids] at hx
    obtain ⟨xy, hmemf, hfst⟩ := List.mem_map.mp hx
    obtain ⟨x2, y⟩ := xy
    simp only at hfst
    subst hfst
    have hmem := (List.mem_filter.mp hmemf).1
    have hl2 : isLevel2Attrs y = true := by
      have := (List.mem_filter.mp hmemf).2
      simpa using this
    have hfind : G.findNode x2 = some y := findNodeL_of_mem_nodup G.nodes x2 y hnd hmem
    have hwfy := hwf (x2, y) hmem
    simp only at hwfy
    have hl2b : (!y.isEmpty && (match alookup y "level" with
        | some lv => pyEqTwo lv
        | Option.none => false)) = true := by
      rw [isLevel2Attrs] at hl2
      exact hl2
    rw [Bool.and_eq_true] at hl2b
    obtain ⟨hempb, hlvb⟩ := hl2b
    have hemp : y.isEmpty = false := by simpa using hempb
    cases hlv : alookup y "level" with
    | none =>
      rw [hlv] at hlvb
      simp at hlvb
    | some lv =>
      rw [hlv] at hlvb
      have heq2 : pyEqTwo lv = true := by simpa using hlvb
      simp only [level2WF, hemp, Bool.false_eq_true, if_false, hlv, heq2,
        if_true] at hwfy
      cases halt : alookup y "type" with
      | none => rw [halt] at hwfy; simp at hwfy
      | some tv =>
        cases hali : alookup y "identifier" with
        | none => rw [halt, hali] at hwfy; cases tv <;> simp at hwfy
        | some iv =>
          rw [halt, hali] at hwfy
          cases tv with
          | str ts =>
            cases iv with
            | str is2 =>
              simp only [Bool.and_eq_true] at hwfy
              refine ⟨y, ts, is2, hfind, halt, hali, hwfy.1, hwfy.2, ?_⟩
              simp only [type_identifier_of,
                show nodeAttrsE G x2 = .ok y from by rw [nodeAttrsE, hfind],
                show attrGetE y "type" = .ok (.str ts) from by rw [attrGetE, halt],
                show attrGetE y "identifier" = .ok (.str is2) from by
                  rw [attrGetE, hali]]
            | none => simp at hwfy
            | int n => simp at hwfy
            | list xs => simp at hwfy
            | dict kvs => simp at hwfy
          | none => simp at hwfy
          | int n => simp at hwfy
          | list xs => simp at hwfy
          | dict kvs => simp at hwfy
  have hok : ∀ x ∈ ids, ∃ k, type_identifier_of G x = .ok k := by
    intro x hx
    obtain ⟨y, ts, is2, -, -, -, -, -, htid⟩ := hdata x hx
    exact ⟨ts ++ "," ++ is2, htid⟩
  obtain ⟨gs, hgo, hknd, hcons, hcnt, hmemb⟩ :=
    group_go_spec G ids [] hok hidsnd (by simp) (by simp) (by simp)
  have hmemids : ∀ g ∈ gs, ∀ y ∈ g.2, y ∈ ids := by
    intro g hg y hy
    rcases hmemb g hg y hy with h | ⟨g2, hg2, -⟩
    · exact h
    · simp at hg2
  have hrecon : ∀ g ∈ gs, ∃ t i, pySplitChar ',' g.1 = [t, i] ∧ g.1 = t ++ "," ++ i := by
    intro g hg
    obtain ⟨hne, hcons2⟩ := hcons g hg
    obtain ⟨x0, hx0⟩ := List.exists_mem_of_ne_nil g.2 hne
    have hx0ids : x0 ∈ ids := hmemids g hg x0 hx0
    obtain ⟨y, ts, is2, -, -, -, hcf1, hcf2, htid⟩ := hdata x0 hx0ids
    have hkey : g.1 = ts ++ "," ++ is2 := by
      have h1 := hcons2 x0 hx0
      rw [htid] at h1
      simpa using h1.symm
    exact ⟨ts, is2, by rw [hkey]; exact pySplitChar_comma_concat ts is2 hcf1 hcf2, hkey⟩
  obtain ⟨rs, hbuild, hf2⟩ := build_idc_inputs_spec gs (by
    intro g hg
    obtain ⟨t, i, hsplit, -⟩ := hrecon g hg
    exact ⟨t, i, hsplit⟩)
  refine ⟨ids, gs, rs, hfil, hgo, hbuild, ?_, ?_, ?_, ?_⟩
  · intro x hx
    have hlen := forall2_filter_length (fun r => decide (x ∈ r.1))
      (fun g => decide (x ∈ g.2)) hf2 (fun g r hr => by
        show decide (x ∈ r.1) = decide (x ∈ g.2)
        rw [hr.1])
    rw [hlen, hcnt x, if_pos hx]
    rfl
  · intro x hxn r hr hxr
    obtain ⟨g, hg, hrel⟩ := forall2_mem_right hf2 r hr
    rw [hrel.1] at hxr
    exact hxn (hmemids g hg x hxr)
  · intro r hr x hxr
    obtain ⟨g, hg, hrel⟩ := forall2_mem_right hf2 r hr
    rw [hrel.1] at hxr
    have hxids : x ∈ ids := hmemids g hg x hxr
    obtain ⟨y, ts, is2, hfind, halt, hali, hcf1, hcf2, htid⟩ := hdata x hxids
    have hkey : g.1 = ts ++ "," ++ is2 := by
      have h1 := (hcons g hg).2 x hxr
      rw [htid] at h1
      simpa using h1.symm
    have hsplit2 : pySplitChar ',' g.1 = [ts, is2] := by
      rw [hkey]
      exact pySplitChar_comma_concat ts is2 hcf1 hcf2
    have hsplit3 := hrel.2
    rw [hsplit2] at hsplit3
    simp only [List.cons.injEq, and_true] at hsplit3
    obtain ⟨hts, his⟩ := hsplit3
    exact ⟨y, hfind, by rw [halt, hts], by rw [hali, his]⟩
  · have hmapeq : rs.map (fun r => [r.2.2, r.2.1]) =
        gs.map (fun g => pySplitChar ',' g.1) :=
      forall2_map_eq _ _ hf2 (fun g r hr => hr.2.symm)
    have hcomp : gs.map (fun g => pySplitChar ',' g.1) =
        (gs.map Prod.fst).map (pySplitChar ',') := by
      simp [List.map_map]
    have hkeyrecon : ∀ k ∈ gs.map Prod.fst,
        ∃ t i, pySplitChar ',' k = [t, i] ∧ k = t ++ "," ++ i := by
      intro k hk
      obtain ⟨g, hg, hfst⟩ := List.mem_map.mp hk
      subst hfst
      exact hrecon g hg
    have hsplitnd : ((gs.map Prod.fst).map (pySplitChar ',')).Nodup := by
      apply List.Nodup.map_on ?_ hknd
      intro k1 hk1 k2 hk2 hEq
      obtain ⟨t1, i1, hs1, hr1⟩ := hkeyrecon k1 hk1
      obtain ⟨t2, i2, hs2, hr2⟩ := hkeyrecon k2 hk2
      rw [hs1, hs2] at hEq
      simp only [List.cons.injEq, and_true] at hEq
      rw [hr1, hr2, hEq.1, hEq.2]
    have hlistnd : (rs.map (fun r => [r.2.2, r.2.1])).Nodup := by
      rw [hmapeq, hcomp]
      exact hsplitnd
    have hpairs : (rs.map (fun r => (r.2.1, r.2.2))).map
        (fun p : String × String => [p.2, p.1]) =
        rs.map (fun r => [r.2.2, r.2.1]) := by
      simp [List.map_map]
    apply List.Nodup.of_map (fun p : String × String => [p.2, p.1])
    rw [hpairs]
    exact hlistnd

/-- C5 witness: the partition property instantiated at a concrete graph
with two differently-typed level-2 nodes. -/
theorem idc_inputs_partition_by_pair_witness :
    ∃ ids groups reqs,
      level2_output_ids group_witness_graph = .ok ids ∧
      group_output_ids group_witness_graph ids = .ok groups ∧
      build_idc_inputs groups = .ok reqs ∧
      (∀ x ∈ ids, (reqs.filter (fun r => decide (x ∈ r.1))).length = 1) ∧
      (∀ x : String, x ∉ ids → ∀ r ∈ reqs, x ∉ r.1) ∧
      (∀ r ∈ reqs, ∀ x ∈ r.1, ∃ y, group_witness_graph.findNode x = some y ∧
        alookup y "type" = some (.str r.2.2) ∧
        alookup y "identifier" = some (.str r.2.1)) ∧
      (reqs.map (fun r => (r.2.1, r.2.2))).Nodup :=
  idc_inputs_partition_by_pair group_witness_graph (by decide) (by decide)
